import Mathlib

/-!
Shallow embedding of the llmrouter gateway core (Go) in Lean 4.

Source files embedded:
  * internal/provider/provider.go  — unified types (ChatRequest/ChatResponse/Usage/StreamChunk)
  * internal/provider/google.go    — Gemini adapter (Adapter A): ChatCompletion, ChatCompletionStream
  * internal/provider/anthropic.go — Anthropic adapter (Adapter B): ChatCompletion, ChatCompletionStream
  * internal/stream/stream.go      — SSE writer (Write)

Modelling conventions:
  * Go `int` is modelled as `Int`; Go strings as `String`.
  * `error` values are modelled as `Option String` carrying the `fmt.Errorf` message text;
    a wrapped error (`%w`) is modelled by appending the wrapped error's message.
  * JSON decoding (`json.Unmarshal`) cannot be reproduced byte-for-byte, so a worker's
    input is the list of scanned SSE lines, each either a non-`data:` line (skipped by the
    code) or a `data:` line together with the outcome of unmarshalling its payload
    (`Except String α`: `.error` models a JSON decode failure).
  * `bufio.Scanner`: the line list models the successfully scanned lines; a final
    `scanErr : Option String` models the value of `scanner.Err()` after the loop.
  * The goroutine worker is modelled as a function from its input to the list of chunks
    it sends on the channel, in order.  The `select { case ch <- chunk: / case <-ctx.Done() }`
    hand-off is modelled by a schedule: a list of booleans consumed one per `select`,
    `true` meaning the consumer accepted the chunk, `false` meaning the cancellation case
    fired at that hand-off.  A missing schedule entry means the send succeeds (a run in
    which the context is never cancelled).  The two `defer` statements
    (`close(ch)`, `httpResp.Body.Close()`) run on every exit path and are recorded as
    boolean fields of the worker's exit record.
  * HTTP effects: the outcome of `client.Do` is an input (`ConnAttempt`): either a
    transport error or a response carrying a status code and a body.
-/

/-- `Usage` from provider.go: token counts. Go `int` fields modelled as `Int`. -/
structure Usage where
  promptTokens : Int
  completionTokens : Int
  totalTokens : Int
deriving DecidableEq, Repr

/-- `StreamChunk` from provider.go.  The `error` field (`Error error` in Go, added for
mid-stream error propagation) is modelled as the error's message text. -/
structure StreamChunk where
  id : String := ""
  model : String := ""
  delta : String := ""
  done : Bool := false
  usage : Option Usage := none
  error : Option String := none
deriving DecidableEq, Repr

/-- `ChatResponse` from provider.go. -/
structure ChatResponse where
  id : String := ""
  model : String := ""
  content : String := ""
  usage : Usage := ⟨0, 0, 0⟩
deriving DecidableEq, Repr

deriving instance DecidableEq for Except

/-- One line produced by `bufio.Scanner` over the SSE body: either a line without the
`"data: "` prefix (skipped), or a `data:` line whose JSON payload unmarshals to `α`
(`.ok`) or fails to unmarshal (`.error msg`). -/
inductive SSELine (α : Type) where
  | other : SSELine α
  | data : Except String α → SSELine α
deriving DecidableEq

/-- Exit record of a streaming worker goroutine: the chunks it sent on the channel in
order, whether it exited through the `<-ctx.Done()` case of a `select`, and whether the
deferred `close(ch)` / `httpResp.Body.Close()` ran (they run on every exit path). -/
structure WorkerExit where
  chunks : List StreamChunk
  cancelled : Bool
  chClosed : Bool
  bodyClosed : Bool
deriving DecidableEq, Repr

-- ---------------------------------------------------------------------------
-- Gemini (Adapter A) types, from google.go
-- ---------------------------------------------------------------------------

/-- `geminiPart` from google.go. -/
structure GeminiPart where
  text : String := ""
deriving DecidableEq, Repr

/-- `geminiContent` from google.go. -/
structure GeminiContent where
  role : String := ""
  parts : List GeminiPart := []
deriving DecidableEq, Repr

/-- `geminiCandidate` from google.go. -/
structure GeminiCandidate where
  content : GeminiContent := {}
  finishReason : String := ""
deriving DecidableEq, Repr

/-- `geminiUsageMetadata` from google.go. -/
structure GeminiUsageMetadata where
  promptTokenCount : Int := 0
  candidatesTokenCount : Int := 0
  totalTokenCount : Int := 0
deriving DecidableEq, Repr

/-- `geminiResponse` from google.go: also the shape of each streaming SSE event. -/
structure GeminiResponse where
  candidates : List GeminiCandidate := []
  usageMetadata : Option GeminiUsageMetadata := none
deriving DecidableEq, Repr

/-- Translation of `geminiUsageMetadata` into the unified `Usage`, as done inline in
both `ChatCompletion` and `ChatCompletionStream` of google.go. -/
def usageOfGeminiMetadata (u : GeminiUsageMetadata) : Usage :=
  { promptTokens := u.promptTokenCount
    completionTokens := u.candidatesTokenCount
    totalTokens := u.totalTokenCount }

/-- The per-event body of the streaming loop in `GoogleProvider.ChatCompletionStream`
(google.go, after a successful `json.Unmarshal`): skip events with no candidates,
otherwise build one chunk whose delta is the first part's text (empty if no parts),
marked done with usage attached when `finishReason` is non-empty.  Returns the chunk
the loop would send, or `none` when the event is skipped. -/
def googleEventChunk (reqModel : String) (resp : GeminiResponse) : Option StreamChunk :=
  match resp.candidates with
  | [] => none
  | candidate :: _ =>
    let delta : String :=
      match candidate.content.parts with
      | [] => ""
      | p :: _ => p.text
    let chunk : StreamChunk := { model := reqModel, delta := delta }
    if candidate.finishReason ≠ "" then
      some { chunk with
              done := true
              usage := resp.usageMetadata.map usageOfGeminiMetadata }
    else
      some chunk

/-- Chunk sent by the Google worker when `json.Unmarshal` fails on a `data:` line. -/
def googleDecodeErrChunk (e : String) : StreamChunk :=
  { done := true, error := some ("decoding gemini stream event: " ++ e) }

/-- Chunk sent by the Google worker when `scanner.Err()` is non-nil after the loop. -/
def googleReadErrChunk (e : String) : StreamChunk :=
  { done := true, error := some ("reading gemini stream: " ++ e) }

/-- The goroutine body of `GoogleProvider.ChatCompletionStream` (google.go).
`lines` is the scanned SSE body, `scanErr` the final `scanner.Err()`, `sched` the
hand-off schedule (see file header).  Note: the decode-failure send is a bare
`ch <- chunk` (no `select`), so it does not consult the schedule; the scanner-error
send and the normal sends are inside `select` with `<-ctx.Done()`. -/
def googleWorkerC (reqModel : String) :
    List (SSELine GeminiResponse) → Option String → List Bool → WorkerExit
  | [], scanErr, sched =>
    match scanErr with
    | none => ⟨[], false, true, true⟩
    | some e =>
      match sched with
      | false :: _ => ⟨[], true, true, true⟩
      | _ => ⟨[googleReadErrChunk e], false, true, true⟩
  | line :: rest, scanErr, sched =>
    match line with
    | .other => googleWorkerC reqModel rest scanErr sched
    | .data (.error e) => ⟨[googleDecodeErrChunk e], false, true, true⟩
    | .data (.ok resp) =>
      match googleEventChunk reqModel resp with
      | none => googleWorkerC reqModel rest scanErr sched
      | some chunk =>
        match sched with
        | false :: _ => ⟨[], true, true, true⟩
        | true :: sched' =>
          let r := googleWorkerC reqModel rest scanErr sched'
          ⟨chunk :: r.chunks, r.cancelled, r.chClosed, r.bodyClosed⟩
        | [] =>
          let r := googleWorkerC reqModel rest scanErr []
          ⟨chunk :: r.chunks, r.cancelled, r.chClosed, r.bodyClosed⟩

/-- The chunks the Google worker sends in a run where the context is never
cancelled (empty schedule: every hand-off succeeds). -/
def googleWorker (reqModel : String) (lines : List (SSELine GeminiResponse))
    (scanErr : Option String) : List StreamChunk :=
  (googleWorkerC reqModel lines scanErr []).chunks

-- ---------------------------------------------------------------------------
-- Anthropic (Adapter B) types, from anthropic.go
-- ---------------------------------------------------------------------------

/-- `anthropicUsage` from anthropic.go. -/
structure AnthropicUsage where
  inputTokens : Int := 0
  outputTokens : Int := 0
deriving DecidableEq, Repr

/-- `anthropicContentBlock` from anthropic.go. -/
structure AnthropicContentBlock where
  type : String := ""
  text : String := ""
deriving DecidableEq, Repr

/-- `anthropicResponse` from anthropic.go (non-streaming response body). -/
structure AnthropicResponse where
  id : String := ""
  content : List AnthropicContentBlock := []
  model : String := ""
  stopReason : String := ""
  usage : AnthropicUsage := {}
deriving DecidableEq, Repr

/-- `anthropicEventMessage` from anthropic.go: the `message` object of `message_start`. -/
structure AnthropicEventMessage where
  id : String := ""
  model : String := ""
  usage : AnthropicUsage := {}
deriving DecidableEq, Repr

/-- `anthropicEventDelta` from anthropic.go. -/
structure AnthropicEventDelta where
  type : String := ""
  text : String := ""
  stopReason : String := ""
deriving DecidableEq, Repr

/-- `anthropicStreamEvent` from anthropic.go: the decode wrapper carrying the `type`
discriminator plus the optional payload fields. -/
structure AnthropicStreamEvent where
  type : String := ""
  message : Option AnthropicEventMessage := none
  delta : Option AnthropicEventDelta := none
  usage : Option AnthropicUsage := none
deriving DecidableEq, Repr

/-- Accumulator state of the Anthropic worker: the `respID`, `model`, `inputTokens`,
`outputTokens` local variables declared at the top of the goroutine in
`AnthropicProvider.ChatCompletionStream`. -/
structure AnthState where
  respID : String := ""
  model : String := ""
  inputTokens : Int := 0
  outputTokens : Int := 0
deriving DecidableEq, Repr

/-- The `switch event.Type` body of the Anthropic streaming goroutine (anthropic.go):
given the accumulator state and one decoded event, returns the updated state and the
chunk sent for this event (if any).  Unrecognized types fall through the switch with
no effect. -/
def anthropicEventStep (s : AnthState) (ev : AnthropicStreamEvent) :
    AnthState × Option StreamChunk :=
  match ev.type with
  | "message_start" =>
    match ev.message with
    | some msg =>
      ({ s with respID := msg.id, model := msg.model, inputTokens := msg.usage.inputTokens },
        none)
    | none => (s, none)
  | "content_block_delta" =>
    match ev.delta with
    | none => (s, none)
    | some d => (s, some { id := s.respID, model := s.model, delta := d.text })
  | "message_delta" =>
    -- the `event.Delta.StopReason` branch in the code has an empty body;
    -- only `event.Usage` updates state here.
    match ev.usage with
    | some u => ({ s with outputTokens := u.outputTokens }, none)
    | none => (s, none)
  | "message_stop" =>
    (s, some { id := s.respID
               model := s.model
               done := true
               usage := some { promptTokens := s.inputTokens
                               completionTokens := s.outputTokens
                               totalTokens := s.inputTokens + s.outputTokens } })
  | _ => (s, none)

/-- Chunk sent by the Anthropic worker when `json.Unmarshal` fails on a `data:` line. -/
def anthropicDecodeErrChunk (e : String) : StreamChunk :=
  { done := true, error := some ("decoding anthropic stream event: " ++ e) }

/-- Chunk sent by the Anthropic worker when `scanner.Err()` is non-nil after the loop. -/
def anthropicReadErrChunk (e : String) : StreamChunk :=
  { done := true, error := some ("reading anthropic stream: " ++ e) }

/-- The goroutine body of `AnthropicProvider.ChatCompletionStream` (anthropic.go),
with the same line/schedule modelling as `googleWorkerC`.  The decode-failure send is
a bare `ch <- chunk`; the event sends and the scanner-error send are inside `select`
with `<-ctx.Done()`. -/
def anthropicWorkerC (s : AnthState) :
    List (SSELine AnthropicStreamEvent) → Option String → List Bool → WorkerExit
  | [], scanErr, sched =>
    match scanErr with
    | none => ⟨[], false, true, true⟩
    | some e =>
      match sched with
      | false :: _ => ⟨[], true, true, true⟩
      | _ => ⟨[anthropicReadErrChunk e], false, true, true⟩
  | line :: rest, scanErr, sched =>
    match line with
    | .other => anthropicWorkerC s rest scanErr sched
    | .data (.error e) => ⟨[anthropicDecodeErrChunk e], false, true, true⟩
    | .data (.ok ev) =>
      match anthropicEventStep s ev with
      | (s', none) => anthropicWorkerC s' rest scanErr sched
      | (s', some chunk) =>
        match sched with
        | false :: _ => ⟨[], true, true, true⟩
        | true :: sched' =>
          let r := anthropicWorkerC s' rest scanErr sched'
          ⟨chunk :: r.chunks, r.cancelled, r.chClosed, r.bodyClosed⟩
        | [] =>
          let r := anthropicWorkerC s' rest scanErr []
          ⟨chunk :: r.chunks, r.cancelled, r.chClosed, r.bodyClosed⟩

/-- The chunks the Anthropic worker sends in a run where the context is never
cancelled, starting from the zero-valued accumulator state. -/
def anthropicWorker (lines : List (SSELine AnthropicStreamEvent))
    (scanErr : Option String) : List StreamChunk :=
  (anthropicWorkerC {} lines scanErr []).chunks

-- ---------------------------------------------------------------------------
-- HTTP call outcomes and the non-streaming / stream-setup paths
-- ---------------------------------------------------------------------------

/-- Outcome of `g.client.Do(httpReq)`: either a transport error (`err != nil`, no
response body exists) or a response with a status code and a body of shape `β`. -/
inductive ConnAttempt (β : Type) where
  | connFail : String → ConnAttempt β
  | success : Int → β → ConnAttempt β
deriving DecidableEq

/-- A streaming response body as consumed by a worker: the scanned SSE lines and the
final `scanner.Err()` value. -/
structure StreamBody (α : Type) where
  lines : List (SSELine α) := []
  scanErr : Option String := none
deriving DecidableEq

/-- Result of a `ChatCompletionStream` call: the returned value (a `Failure`, or the
chunk stream — modelled by the full list of chunks the worker delivers on it), whether
a worker goroutine was started, and whether the upstream response body was closed. -/
structure StreamSetup where
  result : Except String (List StreamChunk)
  workerStarted : Bool
  bodyClosed : Bool
deriving DecidableEq

/-- `GoogleProvider.ChatCompletion` (google.go), from the `client.Do` outcome on:
non-200 status → error; body decode failure → error; no candidate or no part →
error; otherwise the unified response with `Model` taken from the REQUEST and `ID`
left at its zero value (Gemini returns no response id). -/
def googleChatCompletion (reqModel : String) :
    ConnAttempt (Except String GeminiResponse) → Except String ChatResponse
  | .connFail e => .error ("sending request to gemini: " ++ e)
  | .success status bodyDecode =>
    if status ≠ 200 then
      .error ("gemini API error (status " ++ toString status ++ ")")
    else
      match bodyDecode with
      | .error e => .error ("decoding gemini response: " ++ e)
      | .ok geminiResp =>
        match geminiResp.candidates with
        | [] => .error "gemini returned no candidates"
        | candidate :: _ =>
          match candidate.content.parts with
          | [] => .error "gemini returned no candidates"
          | p :: _ =>
            .ok { model := reqModel
                  content := p.text
                  usage :=
                    match geminiResp.usageMetadata with
                    | some u => usageOfGeminiMetadata u
                    | none => ⟨0, 0, 0⟩ }

/-- The `for _, block := range anthropicResp.Content` loop of
`AnthropicProvider.ChatCompletion`: text of the first block whose type is `"text"`,
or the zero value `""` when no such block exists. -/
def firstTextBlock : List AnthropicContentBlock → String
  | [] => ""
  | b :: rest => if b.type = "text" then b.text else firstTextBlock rest

/-- `AnthropicProvider.ChatCompletion` (anthropic.go), from the `client.Do` outcome.
Note: when no `"text"` block exists the code still returns a response (with empty
content) — there is no empty-candidate error on this path. -/
def anthropicChatCompletion :
    ConnAttempt (Except String AnthropicResponse) → Except String ChatResponse
  | .connFail e => .error ("sending request to anthropic: " ++ e)
  | .success status bodyDecode =>
    if status ≠ 200 then
      .error ("anthropic API error (status " ++ toString status ++ ")")
    else
      match bodyDecode with
      | .error e => .error ("decoding anthropic response: " ++ e)
      | .ok r =>
        .ok { id := r.id
              model := r.model
              content := firstTextBlock r.content
              usage := { promptTokens := r.usage.inputTokens
                         completionTokens := r.usage.outputTokens
                         totalTokens := r.usage.inputTokens + r.usage.outputTokens } }

/-- The synchronous part of `GoogleProvider.ChatCompletionStream` (google.go):
transport failure → `Failure`, no worker, no body to close; non-200 status →
`Failure`, no worker, body closed by the deferred close; 200 → exactly one worker
started (its run is included in `result`), channel returned, body closed by the
worker's own defer at the end of its run. -/
def googleChatCompletionStream (reqModel : String) :
    ConnAttempt (StreamBody GeminiResponse) → StreamSetup
  | .connFail e =>
    ⟨.error ("sending request to gemini: " ++ e), false, false⟩
  | .success status body =>
    if status ≠ 200 then
      ⟨.error ("gemini API error (status " ++ toString status ++ ")"), false, true⟩
    else
      ⟨.ok (googleWorker reqModel body.lines body.scanErr), true, true⟩

/-- The synchronous part of `AnthropicProvider.ChatCompletionStream` (anthropic.go),
with the same structure as the Google one. -/
def anthropicChatCompletionStream :
    ConnAttempt (StreamBody AnthropicStreamEvent) → StreamSetup
  | .connFail e =>
    ⟨.error ("sending request to anthropic: " ++ e), false, false⟩
  | .success status body =>
    if status ≠ 200 then
      ⟨.error ("anthropic API error (status " ++ toString status ++ ")"), false, true⟩
    else
      ⟨.ok (anthropicWorker body.lines body.scanErr), true, true⟩

-- ---------------------------------------------------------------------------
-- SSE writer, from stream.go
-- ---------------------------------------------------------------------------

/-- `sseDelta` from stream.go. -/
structure SseDelta where
  content : String := ""
deriving DecidableEq, Repr

/-- `sseChoice` from stream.go. -/
structure SseChoice where
  index : Int := 0
  delta : SseDelta := {}
  finishReason : Option String := none
deriving DecidableEq, Repr

/-- `sseUsage` from stream.go. -/
structure SseUsage where
  promptTokens : Int := 0
  completionTokens : Int := 0
  totalTokens : Int := 0
deriving DecidableEq, Repr

/-- `sseChunk` from stream.go. -/
structure SseChunk where
  id : String := ""
  object : String := ""
  model : String := ""
  choices : List SseChoice := []
  usage : Option SseUsage := none
deriving DecidableEq, Repr

/-- Lower-case hex digit, as used by Go's `encoding/json` in `\u00xx` escapes. -/
def hexChar (n : Nat) : Char :=
  if n < 10 then Char.ofNat (48 + n) else Char.ofNat (87 + n)

/-- Go `encoding/json` escaping of one character inside a JSON string: quote,
backslash, the named control escapes, HTML-unsafe characters (`<`, `>`, `&`), other
control characters as `\u00xx`, and the line separators U+2028/U+2029. -/
def escapeChar (c : Char) : String :=
  if c = '"' then "\\\""
  else if c = '\\' then "\\\\"
  else if c = '\n' then "\\n"
  else if c = '\r' then "\\r"
  else if c = '\t' then "\\t"
  else if c = '<' then "\\u003c"
  else if c = '>' then "\\u003e"
  else if c = '&' then "\\u0026"
  else if c.toNat < 32 then
    "\\u00" ++ String.singleton (hexChar (c.toNat / 16)) ++
      String.singleton (hexChar (c.toNat % 16))
  else if c.toNat = 8232 then "\\u2028"
  else if c.toNat = 8233 then "\\u2029"
  else String.singleton c

/-- A Go JSON string literal for `s`. -/
def quoteJSON (s : String) : String :=
  "\"" ++ String.join (s.data.map escapeChar) ++ "\""

/-- `json.Marshal` of `sseDelta` (`content` has `omitempty`). -/
def marshalSseDelta (d : SseDelta) : String :=
  if d.content = "" then "\x7b\x7d"
  else "\x7b\"content\":" ++ quoteJSON d.content ++ "\x7d"

/-- `json.Marshal` of `sseChoice` (`finish_reason` renders as `null` when nil). -/
def marshalSseChoice (c : SseChoice) : String :=
  "\x7b\"index\":" ++ toString c.index ++
    ",\"delta\":" ++ marshalSseDelta c.delta ++
    ",\"finish_reason\":" ++
    (match c.finishReason with
     | none => "null"
     | some r => quoteJSON r) ++ "\x7d"

/-- `json.Marshal` of `sseUsage`. -/
def marshalSseUsage (u : SseUsage) : String :=
  "\x7b\"prompt_tokens\":" ++ toString u.promptTokens ++
    ",\"completion_tokens\":" ++ toString u.completionTokens ++
    ",\"total_tokens\":" ++ toString u.totalTokens ++ "\x7d"

/-- `json.Marshal` of `sseChunk` (fields in declaration order; `usage` has
`omitempty` on a pointer, so it is omitted when nil). -/
def marshalSseChunk (e : SseChunk) : String :=
  "\x7b" ++
    ("\"id\":" ++ quoteJSON e.id ++
      ",\"object\":" ++ quoteJSON e.object ++
      ",\"model\":" ++ quoteJSON e.model ++
      ",\"choices\":[" ++ String.intercalate "," (e.choices.map marshalSseChoice) ++ "]" ++
      (match e.usage with
       | none => ""
       | some u => ",\"usage\":" ++ marshalSseUsage u) ++ "\x7d")

/-- One SSE wire frame: `fmt.Fprintf(w, "data: %s\n\n", jsonBytes)` in stream.go. -/
def mkFrame (payload : String) : String :=
  "data: " ++ payload ++ "\n\n"

/-- The success sentinel frame `data: [DONE]\n\n` written after the channel closes. -/
def doneFrame : String :=
  mkFrame "[DONE]"

/-- The `sseChunk` built at the top of the loop body of `stream.Write` for one
`StreamChunk`. -/
def sseEventOfChunk (c : StreamChunk) : SseChunk :=
  { id := c.id
    object := "chat.completion.chunk"
    model := c.model
    choices := [{ index := 0, delta := { content := c.delta }, finishReason := none }] }

/-- The frames written by one iteration of the loop in `stream.Write` for a chunk with
no error: a terminal chunk with trailing content yields a content frame and then a
finish frame; a terminal chunk without content yields only the finish frame; a
non-terminal chunk yields one content frame. -/
def writeChunkFrames (c : StreamChunk) : List String :=
  let event := sseEventOfChunk c
  if c.done then
    let contentFrames :=
      if c.delta ≠ "" then [mkFrame (marshalSseChunk event)] else []
    let finishEvent : SseChunk :=
      { event with
          choices := [{ index := 0, delta := {}, finishReason := some "stop" }]
          usage := c.usage.map fun u =>
            ⟨u.promptTokens, u.completionTokens, u.totalTokens⟩ }
    contentFrames ++ [mkFrame (marshalSseChunk finishEvent)]
  else
    [mkFrame (marshalSseChunk event)]

/-- `stream.Write` (stream.go), over the chunks received from the channel: the list of
frames written to the `http.ResponseWriter` in order, and the returned error.  A chunk
with `Error` set makes `Write` return that error immediately, before writing anything
for it; after the channel is drained without error, the `[DONE]` sentinel is written
and `Write` returns nil.  (The `http.Flusher` check, header writes and client-side
write errors are outside this model: writes are assumed to reach the client.) -/
def streamWrite : List StreamChunk → List String × Option String
  | [] => ([doneFrame], none)
  | c :: rest =>
    match c.error with
    | some e => ([], some e)
    | none =>
      let r := streamWrite rest
      (writeChunkFrames c ++ r.1, r.2)

/-- A scanned Gemini SSE line is non-terminal when the loop body neither stops the
worker nor sends a done chunk for it: a skipped non-`data:` line, or a decodable event
with no candidate, or one whose first candidate has an empty `finishReason`. -/
def googleLineNonTerminal : SSELine GeminiResponse → Bool
  | .other => true
  | .data (.error _) => false
  | .data (.ok r) =>
    match r.candidates with
    | [] => true
    | cand :: _ => cand.finishReason == ""

/-- A scanned Anthropic SSE line is non-terminal when it is a skipped non-`data:`
line or a decodable event other than `message_stop`. -/
def anthropicLineNonTerminal : SSELine AnthropicStreamEvent → Bool
  | .other => true
  | .data (.error _) => false
  | .data (.ok ev) => ev.type != "message_stop"

/-- A scanned SSE line whose payload decodes successfully (or is skipped): the lines
on which a worker does not take its decode-failure exit. -/
def lineDecodeOk {α : Type} : SSELine α → Bool
  | .data (.error _) => false
  | _ => true

-- ---------------------------------------------------------------------------
-- Theorems
-- ---------------------------------------------------------------------------

/-- Claim C2: on the Adapter B upstream event sequence
[start(id="r1", model="m", promptTokens=3), delta("a"), delta("b"),
delta-meta(completionTokens=2), stop], the streaming worker emits exactly the chunks
(delta="a", done=false), (delta="b", done=false) and
(delta="", done=true, usage=\x7bpromptTokens:3, completionTokens:2, totalTokens:5\x7d),
every chunk carrying id="r1" and model="m" captured from the start event. -/
theorem anthropic_worker_c2 :
    anthropicWorker
      [ .data (.ok { type := "message_start"
                     message := some { id := "r1", model := "m"
                                       usage := { inputTokens := 3, outputTokens := 0 } } })
      , .data (.ok { type := "content_block_delta"
                     delta := some { type := "text_delta", text := "a" } })
      , .data (.ok { type := "content_block_delta"
                     delta := some { type := "text_delta", text := "b" } })
      , .data (.ok { type := "message_delta"
                     delta := some { stopReason := "end_turn" }
                     usage := some { inputTokens := 0, outputTokens := 2 } })
      , .data (.ok { type := "message_stop" }) ]
      none
    = [ { id := "r1", model := "m", delta := "a" }
      , { id := "r1", model := "m", delta := "b" }
      , { id := "r1", model := "m", delta := "", done := true
          usage := some { promptTokens := 3, completionTokens := 2, totalTokens := 5 } } ] := by
  decide

/-- Claim C1, counterexample: on an Adapter A event carrying both the fragment "X" and
a finish marker (with usage), the streaming worker sends exactly ONE chunk on the chunk
channel — a combined chunk with delta="X" and done=true — not the two chunks
(delta="X", done=false) then (delta="", done=true) the claim describes. -/
theorem google_worker_c1_counterexample :
    googleWorker "m"
      [ .data (.ok { candidates := [ { content := { parts := [{ text := "X" }] }
                                       finishReason := "STOP" } ]
                     usageMetadata := some { promptTokenCount := 1
                                             candidatesTokenCount := 2
                                             totalTokenCount := 3 } }) ]
      none
    = [ { model := "m", delta := "X", done := true
          usage := some { promptTokens := 1, completionTokens := 2, totalTokens := 3 } } ]
    ∧ ¬ (googleWorker "m"
      [ .data (.ok { candidates := [ { content := { parts := [{ text := "X" }] }
                                       finishReason := "STOP" } ]
                     usageMetadata := some { promptTokenCount := 1
                                             candidatesTokenCount := 2
                                             totalTokenCount := 3 } }) ]
      none).length = 2 := by
  decide

/-- Claim C1, amended: for every Adapter A upstream event that carries both a content
fragment and a finish marker, the streaming worker emits exactly ONE chunk on the chunk
channel, carrying delta = fragment, done = true, and usage if the event carried usage;
the split into two wire events happens downstream in the Wire Serializer, which renders
that single chunk as two frames in order — first a content frame with the fragment and
null finish_reason, then a finish frame with empty delta, finish_reason "stop" and
usage attached if present — followed by the `[DONE]` sentinel, so content still
precedes termination on the wire. -/
theorem google_worker_c1_amended (m text finish : String)
    (um : Option GeminiUsageMetadata)
    (htext : text ≠ "") (hfinish : finish ≠ "") :
    googleWorker m
      [ .data (.ok { candidates := [ { content := { parts := [{ text := text }] }
                                       finishReason := finish } ]
                     usageMetadata := um }) ]
      none
    = [ { model := m, delta := text, done := true
          usage := um.map usageOfGeminiMetadata } ]
    ∧ streamWrite
        [ { model := m, delta := text, done := true
            usage := um.map usageOfGeminiMetadata } ]
      = ( [ mkFrame (marshalSseChunk
              { id := "", object := "chat.completion.chunk", model := m
                choices := [ { index := 0, delta := { content := text }
                               finishReason := none } ] })
          , mkFrame (marshalSseChunk
              { id := "", object := "chat.completion.chunk", model := m
                choices := [ { index := 0, delta := { content := "" }
                               finishReason := some "stop" } ]
                usage := (um.map usageOfGeminiMetadata).map fun u =>
                  ⟨u.promptTokens, u.completionTokens, u.totalTokens⟩ })
          , doneFrame ]
        , none ) := by
  constructor
  · simp [googleWorker, googleWorkerC, googleEventChunk, hfinish]
  · simp [streamWrite, writeChunkFrames, sseEventOfChunk, htext]

/-- Witness for `google_worker_c1_amended` at m="m", text="X", finish="STOP",
usage (1,2,3). -/
theorem google_worker_c1_amended_witness :
    googleWorker "m"
      [ .data (.ok { candidates := [ { content := { parts := [{ text := "X" }] }
                                       finishReason := "STOP" } ]
                     usageMetadata := some { promptTokenCount := 1
                                             candidatesTokenCount := 2
                                             totalTokenCount := 3 } }) ]
      none
    = [ { model := "m", delta := "X", done := true
          usage := (some { promptTokenCount := 1, candidatesTokenCount := 2
                           totalTokenCount := 3 } : Option GeminiUsageMetadata).map
                     usageOfGeminiMetadata } ]
    ∧ streamWrite
        [ { model := "m", delta := "X", done := true
            usage := (some { promptTokenCount := 1, candidatesTokenCount := 2
                             totalTokenCount := 3 } : Option GeminiUsageMetadata).map
                       usageOfGeminiMetadata } ]
      = ( [ mkFrame (marshalSseChunk
              { id := "", object := "chat.completion.chunk", model := "m"
                choices := [ { index := 0, delta := { content := "X" }
                               finishReason := none } ] })
          , mkFrame (marshalSseChunk
              { id := "", object := "chat.completion.chunk", model := "m"
                choices := [ { index := 0, delta := { content := "" }
                               finishReason := some "stop" } ]
                usage := ((some { promptTokenCount := 1, candidatesTokenCount := 2
                                  totalTokenCount := 3 } : Option GeminiUsageMetadata).map
                            usageOfGeminiMetadata).map fun u =>
                  ⟨u.promptTokens, u.completionTokens, u.totalTokens⟩ })
          , doneFrame ]
        , none ) :=
  google_worker_c1_amended "m" "X" "STOP"
    (some { promptTokenCount := 1, candidatesTokenCount := 2, totalTokenCount := 3 })
    (by decide) (by decide)

/-- Claim C7, counterexample: an Adapter B non-streaming success response whose only
content block has type "tool_use" (no "text" block) makes `ChatCompletion` RETURN a
response with empty content — it does not fail with an empty-candidate error. -/
theorem anthropic_completion_c7_counterexample :
    anthropicChatCompletion (.success 200 (.ok
      { id := "id1"
        content := [ { type := "tool_use", text := "ignored" } ]
        model := "claude"
        stopReason := "end_turn"
        usage := { inputTokens := 1, outputTokens := 2 } }))
    = .ok { id := "id1", model := "claude", content := ""
            usage := { promptTokens := 1, completionTokens := 2, totalTokens := 3 } } := by
  decide

/-- The loop over content blocks in `AnthropicProvider.ChatCompletion` picks the text
of the first block whose type is `"text"`, and the zero value `""` when none exists. -/
theorem firstTextBlock_eq_find (blocks : List AnthropicContentBlock) :
    firstTextBlock blocks
      = ((blocks.find? fun b => b.type == "text").map AnthropicContentBlock.text).getD "" := by
  induction blocks with
  | nil => rfl
  | cons b rest ih =>
    by_cases h : b.type = "text" <;> simp [firstTextBlock, List.find?_cons, h, ih]

/-- Claim C7, amended: for every Adapter B non-streaming vendor response with a
success status, the unified response's content is the text of the first content block
whose type is "text"; when no such block exists the call still SUCCEEDS and returns a
response whose content is the empty string (the code has no empty-candidate failure on
this path). -/
theorem anthropic_completion_c7_amended (r : AnthropicResponse) :
    anthropicChatCompletion (.success 200 (.ok r))
      = .ok { id := r.id
              model := r.model
              content := ((r.content.find? fun b => b.type == "text").map
                            AnthropicContentBlock.text).getD ""
              usage := { promptTokens := r.usage.inputTokens
                         completionTokens := r.usage.outputTokens
                         totalTokens := r.usage.inputTokens + r.usage.outputTokens } }
    ∧ ((r.content.find? fun b => b.type == "text") = none →
        anthropicChatCompletion (.success 200 (.ok r))
          = .ok { id := r.id
                  model := r.model
                  content := ""
                  usage := { promptTokens := r.usage.inputTokens
                             completionTokens := r.usage.outputTokens
                             totalTokens := r.usage.inputTokens + r.usage.outputTokens } }) := by
  have hmain :
      anthropicChatCompletion (.success 200 (.ok r))
        = .ok { id := r.id
                model := r.model
                content := ((r.content.find? fun b => b.type == "text").map
                              AnthropicContentBlock.text).getD ""
                usage := { promptTokens := r.usage.inputTokens
                           completionTokens := r.usage.outputTokens
                           totalTokens := r.usage.inputTokens + r.usage.outputTokens } } := by
    simp [anthropicChatCompletion, firstTextBlock_eq_find]
  refine ⟨hmain, fun hnone => ?_⟩
  rw [hmain, hnone]
  rfl

/-- Witness for `anthropic_completion_c7_amended` at a response with a single
"tool_use" block (so the no-text-block hypothesis of the second part holds). -/
theorem anthropic_completion_c7_amended_witness :
    anthropicChatCompletion (.success 200 (.ok
      { id := "w", content := [ { type := "tool_use", text := "t" } ]
        model := "c", stopReason := "", usage := { inputTokens := 0, outputTokens := 0 } }))
      = .ok { id := "w"
              model := "c"
              content := ((([ { type := "tool_use", text := "t" } ] :
                  List AnthropicContentBlock).find? fun b => b.type == "text").map
                    AnthropicContentBlock.text).getD ""
              usage := { promptTokens := 0, completionTokens := 0, totalTokens := 0 } }
    ∧ anthropicChatCompletion (.success 200 (.ok
      { id := "w", content := [ { type := "tool_use", text := "t" } ]
        model := "c", stopReason := "", usage := { inputTokens := 0, outputTokens := 0 } }))
      = .ok { id := "w", model := "c", content := ""
              usage := { promptTokens := 0, completionTokens := 0, totalTokens := 0 } } := by
  have h := anthropic_completion_c7_amended
    { id := "w", content := [ { type := "tool_use", text := "t" } ]
      model := "c", stopReason := "", usage := { inputTokens := 0, outputTokens := 0 } }
  refine ⟨by simpa using h.1, by simpa using h.2 (by decide)⟩

/-- Every chunk a Google worker run delivers is either an event chunk (built by the
loop body from a decoded event), a decode-error chunk, or a scanner-error chunk. -/
theorem googleWorkerC_chunk_form (reqModel : String) :
    ∀ (lines : List (SSELine GeminiResponse)) (scanErr : Option String) (sched : List Bool)
      (c : StreamChunk), c ∈ (googleWorkerC reqModel lines scanErr sched).chunks →
      (∃ r, googleEventChunk reqModel r = some c)
      ∨ (∃ e, c = googleDecodeErrChunk e)
      ∨ (∃ e, c = googleReadErrChunk e) := by
  intro lines
  induction lines with
  | nil =>
    intro scanErr sched c hc
    cases scanErr with
    | none => simp [googleWorkerC] at hc
    | some e =>
      rcases sched with _ | ⟨b, tail⟩
      · simp [googleWorkerC] at hc
        exact .inr (.inr ⟨e, hc⟩)
      · cases b
        · simp [googleWorkerC] at hc
        · simp [googleWorkerC] at hc
          exact .inr (.inr ⟨e, hc⟩)
  | cons l rest ih =>
    intro scanErr sched c hc
    cases l with
    | other =>
      exact ih scanErr sched c hc
    | data res =>
      cases res with
      | error e =>
        simp [googleWorkerC] at hc
        exact .inr (.inl ⟨e, hc⟩)
      | ok resp =>
        rcases heq : googleEventChunk reqModel resp with _ | chunk
        · rw [show googleWorkerC reqModel (.data (.ok resp) :: rest) scanErr sched
                = googleWorkerC reqModel rest scanErr sched by
              simp [googleWorkerC, heq]] at hc
          exact ih scanErr sched c hc
        · rcases sched with _ | ⟨b, tail⟩
          · rw [show (googleWorkerC reqModel (.data (.ok resp) :: rest) scanErr []).chunks
                  = chunk :: (googleWorkerC reqModel rest scanErr []).chunks by
                simp [googleWorkerC, heq]] at hc
            rcases List.mem_cons.mp hc with hc | hc
            · exact .inl ⟨resp, by rw [hc]; exact heq⟩
            · exact ih scanErr [] c hc
          · cases b
            · rw [show (googleWorkerC reqModel (.data (.ok resp) :: rest) scanErr
                    (false :: tail)).chunks = [] by simp [googleWorkerC, heq]] at hc
              simp at hc
            · rw [show (googleWorkerC reqModel (.data (.ok resp) :: rest) scanErr
                    (true :: tail)).chunks
                    = chunk :: (googleWorkerC reqModel rest scanErr tail).chunks by
                  simp [googleWorkerC, heq]] at hc
              rcases List.mem_cons.mp hc with hc | hc
              · exact .inl ⟨resp, by rw [hc]; exact heq⟩
              · exact ih scanErr tail c hc

/-- Fields of a chunk built by the Google loop body from a decoded event: zero-valued
id (Gemini supplies none), the REQUEST model, no error, and usage only together with
done. -/
theorem googleEventChunk_fields (reqModel : String) (r : GeminiResponse) (c : StreamChunk)
    (h : googleEventChunk reqModel r = some c) :
    c.id = "" ∧ c.model = reqModel ∧ c.error = none ∧ (c.usage ≠ none → c.done = true) := by
  unfold googleEventChunk at h
  rcases r with ⟨cands, um⟩
  rcases cands with _ | ⟨cand, rest⟩
  · simp at h
  · simp only at h
    split at h
    · injection h with h
      subst h
      simp
    · injection h with h
      subst h
      simp

/-- Claim C10, counterexample: a streaming call with request model "m" whose upstream
body contains one malformed `data:` line makes the worker emit a chunk whose Model
field is "" — not the request's model string "m" (the error chunk is built with
zero-valued ID and Model). -/
theorem google_identity_c10_counterexample :
    (googleWorker "m" [ .data (.error "bad json") ] none).map
        (fun c => (c.id, c.model, c.error.isSome))
      = [("", "", true)]
    ∧ ("" : String) ≠ "m" := by
  decide

/-- Claim C10, amended: for every successful Adapter A call, the non-streaming
response carries an empty ID and the request's model string; every streamed chunk
carries an empty ID; a streamed chunk with no error carries the request's model
string, while an error chunk carries an empty Model as well (Adapter A builds error
chunks with zero-valued ID and Model). -/
theorem google_identity_c10_amended :
    (∀ (reqModel : String) (conn : ConnAttempt (Except String GeminiResponse))
        (resp : ChatResponse),
        googleChatCompletion reqModel conn = .ok resp →
        resp.id = "" ∧ resp.model = reqModel)
    ∧ (∀ (reqModel : String) (lines : List (SSELine GeminiResponse))
        (scanErr : Option String) (c : StreamChunk),
        c ∈ googleWorker reqModel lines scanErr →
        c.id = ""
        ∧ (c.error = none → c.model = reqModel)
        ∧ (c.error ≠ none → c.model = "")) := by
  constructor
  · intro reqModel conn resp h
    cases conn with
    | connFail e => simp [googleChatCompletion] at h
    | success status bd =>
      by_cases hs : status = 200
      · subst hs
        rcases bd with e | gr
        · simp [googleChatCompletion] at h
        · rcases gr with ⟨cands, um⟩
          rcases cands with _ | ⟨cand, crest⟩
          · simp [googleChatCompletion] at h
          · rcases cand with ⟨⟨role, parts⟩, fr⟩
            rcases parts with _ | ⟨p, ps⟩
            · simp [googleChatCompletion] at h
            · simp [googleChatCompletion] at h
              rw [← h]
              exact ⟨rfl, rfl⟩
      · simp [googleChatCompletion, hs] at h
  · intro reqModel lines scanErr c hc
    rcases googleWorkerC_chunk_form reqModel lines scanErr [] c hc with
      ⟨r, hr⟩ | ⟨e, he⟩ | ⟨e, he⟩
    · obtain ⟨h1, h2, h3, _⟩ := googleEventChunk_fields reqModel r c hr
      refine ⟨h1, fun _ => h2, fun hne => absurd h3 hne⟩
    · subst he
      simp [googleDecodeErrChunk]
    · subst he
      simp [googleReadErrChunk]

/-- Witness for `google_identity_c10_amended`: a concrete successful non-streaming
call and a concrete chunk of a streaming run. -/
theorem google_identity_c10_amended_witness :
    ((ChatResponse.mk "" "m" "hi" ⟨0, 0, 0⟩).id = ""
      ∧ (ChatResponse.mk "" "m" "hi" ⟨0, 0, 0⟩).model = "m")
    ∧ ((StreamChunk.mk "" "m" "hi" false none none).id = ""
      ∧ ((StreamChunk.mk "" "m" "hi" false none none).error = none →
          (StreamChunk.mk "" "m" "hi" false none none).model = "m")
      ∧ ((StreamChunk.mk "" "m" "hi" false none none).error ≠ none →
          (StreamChunk.mk "" "m" "hi" false none none).model = "")) := by
  have h := google_identity_c10_amended
  refine ⟨h.1 "m" (.success 200 (.ok
      { candidates := [ { content := { parts := [{ text := "hi" }] } } ] }))
      (ChatResponse.mk "" "m" "hi" ⟨0, 0, 0⟩) (by decide),
    h.2 "m" [ .data (.ok { candidates := [ { content := { parts := [{ text := "hi" }] } } ] }) ]
      none (StreamChunk.mk "" "m" "hi" false none none) (by decide)⟩

/-- Any chunk produced by the Anthropic switch body carries no error, and carries
usage only when it is a done chunk (only `message_stop` attaches usage). -/
theorem anthropicEventStep_chunk_fields (s : AnthState) (ev : AnthropicStreamEvent)
    (s' : AnthState) (c : StreamChunk) (h : anthropicEventStep s ev = (s', some c)) :
    c.error = none ∧ (c.usage ≠ none → c.done = true) := by
  unfold anthropicEventStep at h
  split at h
  · -- message_start
    rcases hm : ev.message with _ | msg <;> rw [hm] at h <;> simp at h
  · -- content_block_delta
    rcases hd : ev.delta with _ | d
    · rw [hd] at h
      simp at h
    · rw [hd] at h
      simp only [Prod.mk.injEq] at h
      obtain ⟨-, h2⟩ := h
      injection h2 with h2
      subst h2
      simp
  · -- message_delta
    rcases hu : ev.usage with _ | u <;> rw [hu] at h <;> simp at h
  · -- message_stop
    simp only [Prod.mk.injEq] at h
    obtain ⟨-, h2⟩ := h
    injection h2 with h2
    subst h2
    simp
  · -- unrecognized type
    simp at h

/-- Every chunk an Anthropic worker run delivers is either a switch-body chunk, a
decode-error chunk, or a scanner-error chunk. -/
theorem anthropicWorkerC_chunk_form :
    ∀ (lines : List (SSELine AnthropicStreamEvent)) (scanErr : Option String)
      (sched : List Bool) (s : AnthState) (c : StreamChunk),
      c ∈ (anthropicWorkerC s lines scanErr sched).chunks →
      (∃ s1 ev s2, anthropicEventStep s1 ev = (s2, some c))
      ∨ (∃ e, c = anthropicDecodeErrChunk e)
      ∨ (∃ e, c = anthropicReadErrChunk e) := by
  intro lines
  induction lines with
  | nil =>
    intro scanErr sched s c hc
    cases scanErr with
    | none => simp [anthropicWorkerC] at hc
    | some e =>
      rcases sched with _ | ⟨b, tail⟩
      · simp [anthropicWorkerC] at hc
        exact .inr (.inr ⟨e, hc⟩)
      · cases b
        · simp [anthropicWorkerC] at hc
        · simp [anthropicWorkerC] at hc
          exact .inr (.inr ⟨e, hc⟩)
  | cons l rest ih =>
    intro scanErr sched s c hc
    cases l with
    | other =>
      exact ih scanErr sched s c hc
    | data res =>
      cases res with
      | error e =>
        simp [anthropicWorkerC] at hc
        exact .inr (.inl ⟨e, hc⟩)
      | ok ev =>
        rcases hstep : anthropicEventStep s ev with ⟨s', oc⟩
        rcases oc with _ | chunk
        · rw [show anthropicWorkerC s (.data (.ok ev) :: rest) scanErr sched
                = anthropicWorkerC s' rest scanErr sched by
              simp [anthropicWorkerC, hstep]] at hc
          exact ih scanErr sched s' c hc
        · rcases sched with _ | ⟨b, tail⟩
          · rw [show (anthropicWorkerC s (.data (.ok ev) :: rest) scanErr []).chunks
                  = chunk :: (anthropicWorkerC s' rest scanErr []).chunks by
                simp [anthropicWorkerC, hstep]] at hc
            rcases List.mem_cons.mp hc with hc | hc
            · exact .inl ⟨s, ev, s', by rw [hstep, hc]⟩
            · exact ih scanErr [] s' c hc
          · cases b
            · rw [show (anthropicWorkerC s (.data (.ok ev) :: rest) scanErr
                    (false :: tail)).chunks = [] by simp [anthropicWorkerC, hstep]] at hc
              simp at hc
            · rw [show (anthropicWorkerC s (.data (.ok ev) :: rest) scanErr
                    (true :: tail)).chunks
                    = chunk :: (anthropicWorkerC s' rest scanErr tail).chunks by
                  simp [anthropicWorkerC, hstep]] at hc
              rcases List.mem_cons.mp hc with hc | hc
              · exact .inl ⟨s, ev, s', by rw [hstep, hc]⟩
              · exact ih scanErr tail s' c hc

/-- A run of non-terminal lines in front of any tail contributes only done=false
chunks, after which the worker continues into the tail. -/
theorem googleWorkerC_nonterm_append (reqModel : String)
    (tail : List (SSELine GeminiResponse)) (scanErr : Option String) :
    ∀ init : List (SSELine GeminiResponse),
      (∀ l ∈ init, googleLineNonTerminal l = true) →
      ∃ cs, (googleWorkerC reqModel (init ++ tail) scanErr []).chunks
              = cs ++ (googleWorkerC reqModel tail scanErr []).chunks
        ∧ ∀ c ∈ cs, c.done = false := by
  intro init
  induction init with
  | nil => exact fun _ => ⟨[], rfl, by simp⟩
  | cons l init' ih =>
    intro hnt
    have hl := hnt l (List.mem_cons_self _ _)
    obtain ⟨cs, hcs, hdone⟩ := ih fun x hx => hnt x (List.mem_cons_of_mem _ hx)
    cases l with
    | other =>
      exact ⟨cs, by simpa [googleWorkerC] using hcs, hdone⟩
    | data res =>
      cases res with
      | error e => simp [googleLineNonTerminal] at hl
      | ok r =>
        rcases hr : r.candidates with _ | ⟨cand, crest⟩
        · have hnone : googleEventChunk reqModel r = none := by
            unfold googleEventChunk
            rw [hr]
          exact ⟨cs, by simpa [googleWorkerC, hnone] using hcs, hdone⟩
        · have hfr : cand.finishReason = "" := by
            simp [googleLineNonTerminal, hr] at hl
            exact hl
          rcases hev : googleEventChunk reqModel r with _ | ch
          · exact absurd hev (by unfold googleEventChunk; rw [hr]; simp [hfr])
          · have hchdone : ch.done = false := by
              unfold googleEventChunk at hev
              rw [hr] at hev
              simp [hfr] at hev
              rw [← hev]
            have hcons :
                (googleWorkerC reqModel
                    ((SSELine.data (Except.ok r) :: init') ++ tail) scanErr []).chunks
                  = ch :: (googleWorkerC reqModel (init' ++ tail) scanErr []).chunks := by
              simp [googleWorkerC, hev]
            refine ⟨ch :: cs, ?_, ?_⟩
            · rw [hcons, hcs]
              rfl
            · intro c hc
              rcases List.mem_cons.mp hc with hc | hc
              · rw [hc, hchdone]
              · exact hdone c hc

/-- An event other than `message_stop` never yields a done chunk: the switch body
emits nothing for it, or emits a done=false content chunk. -/
theorem anthropicEventStep_nonstop (s : AnthState) (ev : AnthropicStreamEvent)
    (h : ev.type ≠ "message_stop") :
    (anthropicEventStep s ev).2 = none
    ∨ ∃ ch, (anthropicEventStep s ev).2 = some ch ∧ ch.done = false := by
  unfold anthropicEventStep
  split
  · rcases hm : ev.message with _ | msg <;> simp
  · rcases hd : ev.delta with _ | d
    · simp
    · exact .inr ⟨_, rfl, rfl⟩
  · rcases hu : ev.usage with _ | u <;> simp
  · rename_i heq
    exact absurd heq h
  · simp

/-- A run of non-terminal lines in front of any tail contributes only done=false
chunks; the worker then continues into the tail from some accumulator state. -/
theorem anthropicWorkerC_nonterm_append
    (tail : List (SSELine AnthropicStreamEvent)) (scanErr : Option String) :
    ∀ (init : List (SSELine AnthropicStreamEvent)) (s : AnthState),
      (∀ l ∈ init, anthropicLineNonTerminal l = true) →
      ∃ cs s', (anthropicWorkerC s (init ++ tail) scanErr []).chunks
              = cs ++ (anthropicWorkerC s' tail scanErr []).chunks
        ∧ ∀ c ∈ cs, c.done = false := by
  intro init
  induction init with
  | nil => exact fun s _ => ⟨[], s, rfl, by simp⟩
  | cons l init' ih =>
    intro s hnt
    have hl := hnt l (List.mem_cons_self _ _)
    cases l with
    | other =>
      obtain ⟨cs, s', hcs, hdone⟩ := ih s fun x hx => hnt x (List.mem_cons_of_mem _ hx)
      exact ⟨cs, s', by simpa [anthropicWorkerC] using hcs, hdone⟩
    | data res =>
      cases res with
      | error e => simp [anthropicLineNonTerminal] at hl
      | ok ev =>
        have hnstop : ev.type ≠ "message_stop" := by
          simp [anthropicLineNonTerminal] at hl
          exact hl
        rcases hstep : anthropicEventStep s ev with ⟨s1, oc⟩
        rcases oc with _ | ch
        · obtain ⟨cs, s', hcs, hdone⟩ :=
            ih s1 fun x hx => hnt x (List.mem_cons_of_mem _ hx)
          refine ⟨cs, s', ?_, hdone⟩
          rw [show (anthropicWorkerC s
                ((SSELine.data (Except.ok ev) :: init') ++ tail) scanErr []).chunks
                = (anthropicWorkerC s1 (init' ++ tail) scanErr []).chunks by
              simp [anthropicWorkerC, hstep]]
          exact hcs
        · have hchdone : ch.done = false := by
            rcases anthropicEventStep_nonstop s ev hnstop with hnone | ⟨ch', hch', hd'⟩
            · rw [hstep] at hnone
              simp at hnone
            · rw [hstep] at hch'
              simp at hch'
              rw [hch']
              exact hd'
          obtain ⟨cs, s', hcs, hdone⟩ :=
            ih s1 fun x hx => hnt x (List.mem_cons_of_mem _ hx)
          refine ⟨ch :: cs, s', ?_, ?_⟩
          · rw [show (anthropicWorkerC s
                  ((SSELine.data (Except.ok ev) :: init') ++ tail) scanErr []).chunks
                  = ch :: (anthropicWorkerC s1 (init' ++ tail) scanErr []).chunks by
                simp [anthropicWorkerC, hstep]]
            rw [hcs]
            rfl
          · intro c hc
            rcases List.mem_cons.mp hc with hc | hc
            · rw [hc, hchdone]
            · exact hdone c hc

/-- A single line processed with no scanner error yields at most one chunk. -/
theorem googleWorkerC_single_le_one (reqModel : String) (l : SSELine GeminiResponse) :
    (googleWorkerC reqModel [l] none []).chunks.length ≤ 1 := by
  cases l with
  | other => simp [googleWorkerC]
  | data res =>
    cases res with
    | error e => simp [googleWorkerC]
    | ok r =>
      rcases hev : googleEventChunk reqModel r with _ | ch <;>
        simp [googleWorkerC, hev]

/-- A single line processed with no scanner error yields at most one chunk. -/
theorem anthropicWorkerC_single_le_one (s : AnthState)
    (l : SSELine AnthropicStreamEvent) :
    (anthropicWorkerC s [l] none []).chunks.length ≤ 1 := by
  cases l with
  | other => simp [anthropicWorkerC]
  | data res =>
    cases res with
    | error e => simp [anthropicWorkerC]
    | ok ev =>
      rcases hstep : anthropicEventStep s ev with ⟨s1, oc⟩
      rcases oc with _ | ch <;> simp [anthropicWorkerC, hstep]

/-- Elements of `(cs ++ t).dropLast` satisfy any property all of `cs` satisfies,
provided `t` has at most one element. -/
theorem dropLast_append_small {α : Type} (P : α → Prop) (cs t : List α)
    (ht : t.length ≤ 1) (h : ∀ c ∈ cs, P c) :
    ∀ c ∈ (cs ++ t).dropLast, P c := by
  rcases t with _ | ⟨a, t'⟩
  · intro c hc
    simp only [List.append_nil] at hc
    exact h c (List.dropLast_subset _ hc)
  · rcases t' with _ | ⟨b, t''⟩
    · intro c hc
      rw [List.dropLast_concat] at hc
      exact h c hc
    · simp at ht

/-- In a Google worker run over a well-formed upstream body (every line before the
last is non-terminal; when a read error ends the scan, every line is non-terminal),
every chunk before the last is done=false. -/
theorem googleWorker_done_last (reqModel : String)
    (lines : List (SSELine GeminiResponse)) (scanErr : Option String)
    (hinit : ∀ l ∈ lines.dropLast, googleLineNonTerminal l = true)
    (hscan : scanErr ≠ none → ∀ l ∈ lines, googleLineNonTerminal l = true) :
    ∀ c ∈ (googleWorker reqModel lines scanErr).dropLast, c.done = false := by
  unfold googleWorker
  cases scanErr with
  | some e =>
    have hall := hscan (by simp)
    obtain ⟨cs, hcs, hdone⟩ :=
      googleWorkerC_nonterm_append reqModel [] (some e) lines hall
    rw [List.append_nil] at hcs
    rw [show (googleWorkerC reqModel [] (some e) []).chunks
          = [googleReadErrChunk e] by rfl] at hcs
    intro c hc
    rw [hcs, List.dropLast_concat] at hc
    exact hdone c hc
  | none =>
    by_cases hempty : lines = []
    · subst hempty
      simp [googleWorkerC]
    · obtain ⟨cs, hcs, hdone⟩ :=
        googleWorkerC_nonterm_append reqModel [lines.getLast hempty] none
          lines.dropLast hinit
      rw [List.dropLast_append_getLast hempty] at hcs
      intro c hc
      rw [hcs] at hc
      exact dropLast_append_small _ cs _
        (googleWorkerC_single_le_one reqModel _) hdone c hc

/-- In an Anthropic worker run over a well-formed upstream body, every chunk before
the last is done=false. -/
theorem anthropicWorker_done_last
    (lines : List (SSELine AnthropicStreamEvent)) (scanErr : Option String)
    (hinit : ∀ l ∈ lines.dropLast, anthropicLineNonTerminal l = true)
    (hscan : scanErr ≠ none → ∀ l ∈ lines, anthropicLineNonTerminal l = true) :
    ∀ c ∈ (anthropicWorker lines scanErr).dropLast, c.done = false := by
  unfold anthropicWorker
  cases scanErr with
  | some e =>
    have hall := hscan (by simp)
    obtain ⟨cs, s', hcs, hdone⟩ :=
      anthropicWorkerC_nonterm_append [] (some e) lines {} hall
    rw [List.append_nil] at hcs
    rw [show (anthropicWorkerC s' [] (some e) []).chunks
          = [anthropicReadErrChunk e] by rfl] at hcs
    intro c hc
    rw [hcs, List.dropLast_concat] at hc
    exact hdone c hc
  | none =>
    by_cases hempty : lines = []
    · subst hempty
      simp [anthropicWorkerC]
    · obtain ⟨cs, s', hcs, hdone⟩ :=
        anthropicWorkerC_nonterm_append [lines.getLast hempty] none
          lines.dropLast {} hinit
      rw [List.dropLast_append_getLast hempty] at hcs
      intro c hc
      rw [hcs] at hc
      exact dropLast_append_small _ cs _
        (anthropicWorkerC_single_le_one s' _) hdone c hc

/-- Claim C3, counterexample: the workers do not enforce "at most one done chunk /
done chunk is last" against an ill-formed upstream: two Gemini events both carrying a
finish marker make the Google worker emit two done=true chunks, the first of which is
not the last chunk produced. -/
theorem stream_invariants_c3_counterexample :
    (googleWorker "m"
      [ .data (.ok { candidates := [ { finishReason := "STOP" } ] })
      , .data (.ok { candidates := [ { finishReason := "STOP" } ] }) ]
      none).map (fun c => c.done)
    = [true, true] := by
  decide

/-- Claim C3, amended: (1)-(2) unconditionally, in every Adapter A or Adapter B
worker run, usage is non-nil only on a done=true chunk, and error is non-nil only on
a done=true chunk that carries no usage; (3)-(4) the "at most one done=true chunk,
and it is the last chunk produced" invariant holds provided the upstream body is
well-formed: every line before the last is non-terminal, and when a read error ends
the scan no line at all is terminal.  (Without that proviso the code forwards
whatever the vendor sends — see the counterexample.) -/
theorem stream_invariants_c3_amended :
    (∀ (reqModel : String) (lines : List (SSELine GeminiResponse))
        (scanErr : Option String) (c : StreamChunk),
        c ∈ googleWorker reqModel lines scanErr →
        (c.usage ≠ none → c.done = true)
        ∧ (c.error ≠ none → c.done = true ∧ c.usage = none))
    ∧ (∀ (lines : List (SSELine AnthropicStreamEvent))
        (scanErr : Option String) (c : StreamChunk),
        c ∈ anthropicWorker lines scanErr →
        (c.usage ≠ none → c.done = true)
        ∧ (c.error ≠ none → c.done = true ∧ c.usage = none))
    ∧ (∀ (reqModel : String) (lines : List (SSELine GeminiResponse))
        (scanErr : Option String),
        (∀ l ∈ lines.dropLast, googleLineNonTerminal l = true) →
        (scanErr ≠ none → ∀ l ∈ lines, googleLineNonTerminal l = true) →
        ∀ c ∈ (googleWorker reqModel lines scanErr).dropLast, c.done = false)
    ∧ (∀ (lines : List (SSELine AnthropicStreamEvent))
        (scanErr : Option String),
        (∀ l ∈ lines.dropLast, anthropicLineNonTerminal l = true) →
        (scanErr ≠ none → ∀ l ∈ lines, anthropicLineNonTerminal l = true) →
        ∀ c ∈ (anthropicWorker lines scanErr).dropLast, c.done = false) := by
  refine ⟨?_, ?_, ?_, ?_⟩
  · intro reqModel lines scanErr c hc
    rcases googleWorkerC_chunk_form reqModel lines scanErr [] c hc with
      ⟨r, hr⟩ | ⟨e, he⟩ | ⟨e, he⟩
    · obtain ⟨-, -, h3, h4⟩ := googleEventChunk_fields reqModel r c hr
      exact ⟨h4, fun hne => absurd h3 hne⟩
    · subst he
      simp [googleDecodeErrChunk]
    · subst he
      simp [googleReadErrChunk]
  · intro lines scanErr c hc
    rcases anthropicWorkerC_chunk_form lines scanErr [] {} c hc with
      ⟨s1, ev, s2, hstep⟩ | ⟨e, he⟩ | ⟨e, he⟩
    · obtain ⟨h1, h2⟩ := anthropicEventStep_chunk_fields s1 ev s2 c hstep
      exact ⟨h2, fun hne => absurd h1 hne⟩
    · subst he
      simp [anthropicDecodeErrChunk]
    · subst he
      simp [anthropicReadErrChunk]
  · exact googleWorker_done_last
  · exact anthropicWorker_done_last

/-- Witness for `stream_invariants_c3_amended` on concrete runs of both workers. -/
theorem stream_invariants_c3_amended_witness :
    (((StreamChunk.mk "" "m" "hi" false none none).usage ≠ none →
        (StreamChunk.mk "" "m" "hi" false none none).done = true)
      ∧ ((StreamChunk.mk "" "m" "hi" false none none).error ≠ none →
          (StreamChunk.mk "" "m" "hi" false none none).done = true
          ∧ (StreamChunk.mk "" "m" "hi" false none none).usage = none))
    ∧ (((StreamChunk.mk "" "" "" true (some ⟨0, 0, 0⟩) none).usage ≠ none →
        (StreamChunk.mk "" "" "" true (some ⟨0, 0, 0⟩) none).done = true)
      ∧ ((StreamChunk.mk "" "" "" true (some ⟨0, 0, 0⟩) none).error ≠ none →
          (StreamChunk.mk "" "" "" true (some ⟨0, 0, 0⟩) none).done = true
          ∧ (StreamChunk.mk "" "" "" true (some ⟨0, 0, 0⟩) none).usage = none))
    ∧ (StreamChunk.mk "" "m" "hi" false none none).done = false
    ∧ (StreamChunk.mk "" "" "a" false none none).done = false := by
  have h := stream_invariants_c3_amended
  refine ⟨?_, ?_, ?_, ?_⟩
  · exact h.1 "m"
      [ .data (.ok { candidates := [ { content := { parts := [{ text := "hi" }] } } ] }) ]
      none (StreamChunk.mk "" "m" "hi" false none none) (by decide)
  · exact h.2.1 [ .data (.ok { type := "message_stop" }) ] none
      (StreamChunk.mk "" "" "" true (some ⟨0, 0, 0⟩) none) (by decide)
  · exact h.2.2.1 "m"
      [ .data (.ok { candidates := [ { content := { parts := [{ text := "hi" }] } } ] })
      , .data (.ok { candidates := [ { finishReason := "STOP" } ] }) ]
      none (by decide) (fun hn => absurd rfl hn)
      (StreamChunk.mk "" "m" "hi" false none none) (by decide)
  · exact h.2.2.2
      [ .data (.ok { type := "content_block_delta"
                     delta := some { type := "text_delta", text := "a" } })
      , .data (.ok { type := "message_stop" }) ]
      none (by decide) (fun hn => absurd rfl hn)
      (StreamChunk.mk "" "" "a" false none none) (by decide)

/-- A marshalled `sseChunk` JSON object starts with an opening brace. -/
theorem marshalSseChunk_head (e : SseChunk) : ∃ t, marshalSseChunk e = "\x7b" ++ t :=
  ⟨_, rfl⟩

/-- A marshalled `sseChunk` payload is never the `[DONE]` sentinel text. -/
theorem marshalSseChunk_ne_done (e : SseChunk) : marshalSseChunk e ≠ "[DONE]" := by
  obtain ⟨t, ht⟩ := marshalSseChunk_head e
  rw [ht]
  intro h
  have hd := congrArg String.data h
  rw [String.data_append] at hd
  have hb : ("\x7b" : String).data = ['\x7b'] := rfl
  have hdone : ("[DONE]" : String).data = ['[', 'D', 'O', 'N', 'E', ']'] := rfl
  rw [hb, hdone] at hd
  injection hd with h1 _
  exact absurd h1 (by decide)

/-- The SSE framing `data: <payload>\n\n` determines the payload. -/
theorem mkFrame_inj {p q : String} (h : mkFrame p = mkFrame q) : p = q := by
  unfold mkFrame at h
  have hd := congrArg String.data h
  simp only [String.data_append] at hd
  exact String.ext (List.append_cancel_left (List.append_cancel_right hd))

/-- No frame built from a marshalled chunk is the `[DONE]` sentinel frame. -/
theorem mkFrame_marshal_ne_doneFrame (e : SseChunk) :
    mkFrame (marshalSseChunk e) ≠ doneFrame := by
  unfold doneFrame
  intro h
  exact marshalSseChunk_ne_done e (mkFrame_inj h)

/-- Every frame the loop body writes for a chunk is a `data: <payload>\n\n` frame and
is not the sentinel. -/
theorem writeChunkFrames_shape (c : StreamChunk) :
    ∀ f ∈ writeChunkFrames c, (∃ p, f = mkFrame p) ∧ f ≠ doneFrame := by
  intro f hf
  simp only [writeChunkFrames] at hf
  by_cases hdone : c.done
  · rw [if_pos hdone] at hf
    rcases List.mem_append.mp hf with hf | hf
    · by_cases hd : c.delta = ""
      · simp [hd] at hf
      · simp [hd] at hf
        subst hf
        exact ⟨⟨_, rfl⟩, mkFrame_marshal_ne_doneFrame _⟩
    · simp at hf
      subst hf
      exact ⟨⟨_, rfl⟩, mkFrame_marshal_ne_doneFrame _⟩
  · rw [if_neg hdone] at hf
    simp at hf
    subst hf
    exact ⟨⟨_, rfl⟩, mkFrame_marshal_ne_doneFrame _⟩

/-- On an error-free chunk list, `Write` renders every chunk's frames in order and
appends the `[DONE]` sentinel, returning nil. -/
theorem streamWrite_noerr (chunks : List StreamChunk)
    (h : ∀ c ∈ chunks, c.error = none) :
    streamWrite chunks = ((chunks.map writeChunkFrames).flatten ++ [doneFrame], none) := by
  induction chunks with
  | nil => rfl
  | cons c rest ih =>
    have hc := h c (List.mem_cons_self _ _)
    have hrest := ih fun x hx => h x (List.mem_cons_of_mem _ hx)
    simp [streamWrite, hc, hrest]

/-- `Write` stops at the first error chunk: the frames already written are exactly
those of the error-free chunks before it, and the chunk's error is returned. -/
theorem streamWrite_stops_at_error (c : StreamChunk) (post : List StreamChunk)
    (e : String) (hc : c.error = some e) :
    ∀ pre : List StreamChunk, (∀ x ∈ pre, x.error = none) →
      streamWrite (pre ++ c :: post) = ((pre.map writeChunkFrames).flatten, some e) := by
  intro pre
  induction pre with
  | nil =>
    intro _
    simp [streamWrite, hc]
  | cons x xs ih =>
    intro hpre
    have hx := hpre x (List.mem_cons_self _ _)
    have hxs := ih fun y hy => hpre y (List.mem_cons_of_mem _ hy)
    simp [streamWrite, hx, hxs]

/-- Once a chunk with error set is in the stream, the rendered output contains no
`[DONE]` frame. -/
theorem streamWrite_error_no_done :
    ∀ chunks : List StreamChunk, (∃ c ∈ chunks, c.error ≠ none) →
      doneFrame ∉ (streamWrite chunks).1 := by
  intro chunks
  induction chunks with
  | nil =>
    rintro ⟨c, hc, -⟩
    simp at hc
  | cons x xs ih =>
    rintro ⟨c, hc, hcerr⟩
    rcases hx : x.error with _ | e
    · have hcxs : c ∈ xs := by
        rcases List.mem_cons.mp hc with rfl | h
        · exact absurd hx hcerr
        · exact h
      have hrec := ih ⟨c, hcxs, hcerr⟩
      simp only [streamWrite, hx]
      intro hmem
      rcases List.mem_append.mp hmem with hmem | hmem
      · exact (writeChunkFrames_shape x doneFrame hmem).2 rfl
      · exact hrec hmem
    · simp [streamWrite, hx]

/-- Claim C4: when the Wire Serializer receives a chunk with error set, it returns
that error to its caller, the frames written are exactly those of the error-free
chunks received before it (nothing for the error chunk or anything after it), and the
output contains no `data: [DONE]` sentinel frame. -/
theorem stream_write_error_c4 (pre : List StreamChunk) (c : StreamChunk)
    (post : List StreamChunk) (e : String)
    (hpre : ∀ x ∈ pre, x.error = none) (hc : c.error = some e) :
    streamWrite (pre ++ c :: post) = ((pre.map writeChunkFrames).flatten, some e)
    ∧ doneFrame ∉ (streamWrite (pre ++ c :: post)).1 := by
  refine ⟨streamWrite_stops_at_error c post e hc pre hpre, ?_⟩
  exact streamWrite_error_no_done _ ⟨c, by simp, by simp [hc]⟩

/-- Witness for `stream_write_error_c4`: one content chunk followed by an error
chunk. -/
theorem stream_write_error_c4_witness :
    streamWrite
        [ StreamChunk.mk "" "m" "hi" false none none
        , StreamChunk.mk "" "" "" true none (some "connection reset") ]
      = (([ StreamChunk.mk "" "m" "hi" false none none ].map writeChunkFrames).flatten,
          some "connection reset")
    ∧ doneFrame ∉ (streamWrite
        [ StreamChunk.mk "" "m" "hi" false none none
        , StreamChunk.mk "" "" "" true none (some "connection reset") ]).1 :=
  stream_write_error_c4
    [ StreamChunk.mk "" "m" "hi" false none none ]
    (StreamChunk.mk "" "" "" true none (some "connection reset"))
    [] "connection reset" (by decide) rfl

/-- Claim C8: when the Wire Serializer drains an error-free chunk stream to
completion, it returns nil, every frame written matches `data: <payload>\n\n`,
exactly one `data: [DONE]\n\n` sentinel frame appears and it is the final frame; and
the sentinel appears only on this error-free path (a stream containing an error chunk
renders no sentinel at all). -/
theorem stream_write_success_c8 (chunks : List StreamChunk)
    (h : ∀ c ∈ chunks, c.error = none) :
    (streamWrite chunks).2 = none
    ∧ (∀ f ∈ (streamWrite chunks).1, ∃ p, f = mkFrame p)
    ∧ (streamWrite chunks).1.getLast? = some doneFrame
    ∧ (streamWrite chunks).1.count doneFrame = 1
    ∧ ∀ chunks' : List StreamChunk, (∃ c ∈ chunks', c.error ≠ none) →
        doneFrame ∉ (streamWrite chunks').1 := by
  have hw := streamWrite_noerr chunks h
  have hflat : ∀ f ∈ (chunks.map writeChunkFrames).flatten,
      (∃ p, f = mkFrame p) ∧ f ≠ doneFrame := by
    intro f hf
    rcases List.mem_flatten.mp hf with ⟨l, hl, hfl⟩
    rcases List.mem_map.mp hl with ⟨x, hx, hxl⟩
    exact writeChunkFrames_shape x f (by rw [← hxl] at hfl; exact hfl)
  refine ⟨?_, ?_, ?_, ?_, streamWrite_error_no_done⟩
  · rw [hw]
  · rw [hw]
    intro f hf
    rcases List.mem_append.mp hf with hf | hf
    · exact (hflat f hf).1
    · simp at hf
      exact ⟨"[DONE]", by rw [hf]; rfl⟩
  · rw [hw]
    exact List.getLast?_concat _
  · rw [hw]
    rw [List.count_append]
    have h0 : (chunks.map writeChunkFrames).flatten.count doneFrame = 0 := by
      rw [List.count_eq_zero]
      intro hmem
      exact (hflat doneFrame hmem).2 rfl
    rw [h0]
    simp

/-- Witness for `stream_write_success_c8` on a two-chunk error-free stream. -/
theorem stream_write_success_c8_witness :
    (streamWrite
        [ StreamChunk.mk "" "m" "hi" false none none
        , StreamChunk.mk "" "m" "" true (some ⟨1, 1, 2⟩) none ]).2 = none
    ∧ (∀ f ∈ (streamWrite
        [ StreamChunk.mk "" "m" "hi" false none none
        , StreamChunk.mk "" "m" "" true (some ⟨1, 1, 2⟩) none ]).1, ∃ p, f = mkFrame p)
    ∧ (streamWrite
        [ StreamChunk.mk "" "m" "hi" false none none
        , StreamChunk.mk "" "m" "" true (some ⟨1, 1, 2⟩) none ]).1.getLast?
      = some doneFrame
    ∧ (streamWrite
        [ StreamChunk.mk "" "m" "hi" false none none
        , StreamChunk.mk "" "m" "" true (some ⟨1, 1, 2⟩) none ]).1.count doneFrame = 1 := by
  have h := stream_write_success_c8
    [ StreamChunk.mk "" "m" "hi" false none none
    , StreamChunk.mk "" "m" "" true (some ⟨1, 1, 2⟩) none ] (by decide)
  exact ⟨h.1, h.2.1, h.2.2.1, h.2.2.2.1⟩

/-- With an empty schedule (a run in which the context is never cancelled) the Google
worker never exits through the cancellation case. -/
theorem googleWorkerC_nil_sched_not_cancelled (reqModel : String) :
    ∀ (lines : List (SSELine GeminiResponse)) (scanErr : Option String),
      (googleWorkerC reqModel lines scanErr []).cancelled = false := by
  intro lines
  induction lines with
  | nil =>
    intro scanErr
    cases scanErr <;> rfl
  | cons l rest ih =>
    intro scanErr
    cases l with
    | other => exact ih scanErr
    | data res =>
      cases res with
      | error e => rfl
      | ok r =>
        rcases hev : googleEventChunk reqModel r with _ | ch <;>
          simp [googleWorkerC, hev, ih scanErr]

/-- With an empty schedule the Anthropic worker never exits through the cancellation
case. -/
theorem anthropicWorkerC_nil_sched_not_cancelled :
    ∀ (lines : List (SSELine AnthropicStreamEvent)) (s : AnthState)
      (scanErr : Option String),
      (anthropicWorkerC s lines scanErr []).cancelled = false := by
  intro lines
  induction lines with
  | nil =>
    intro s scanErr
    cases scanErr <;> rfl
  | cons l rest ih =>
    intro s scanErr
    cases l with
    | other => exact ih s scanErr
    | data res =>
      cases res with
      | error e => rfl
      | ok ev =>
        rcases hstep : anthropicEventStep s ev with ⟨s1, oc⟩
        rcases oc with _ | ch <;> simp [anthropicWorkerC, hstep, ih s1 scanErr]

/-- Claim C5: in every worker run in which the cancellation case fires, the worker
delivers exactly the chunks accepted at the hand-offs before cancellation (none
after), and both deferred closes — of the chunk source and of the upstream response
body — run on that exit path.  (Cancellation is modelled as the worker observing
`<-ctx.Done()` at a `select` hand-off; the schedule records each hand-off's outcome.) -/
theorem worker_cancellation_c5 :
    (∀ (reqModel : String) (lines : List (SSELine GeminiResponse))
        (scanErr : Option String) (sched : List Bool),
        (googleWorkerC reqModel lines scanErr sched).cancelled = true →
        (googleWorkerC reqModel lines scanErr sched).chClosed = true
        ∧ (googleWorkerC reqModel lines scanErr sched).bodyClosed = true
        ∧ (googleWorkerC reqModel lines scanErr sched).chunks.length
            = (sched.takeWhile fun b => b).length)
    ∧ (∀ (s : AnthState) (lines : List (SSELine AnthropicStreamEvent))
        (scanErr : Option String) (sched : List Bool),
        (anthropicWorkerC s lines scanErr sched).cancelled = true →
        (anthropicWorkerC s lines scanErr sched).chClosed = true
        ∧ (anthropicWorkerC s lines scanErr sched).bodyClosed = true
        ∧ (anthropicWorkerC s lines scanErr sched).chunks.length
            = (sched.takeWhile fun b => b).length) := by
  constructor
  · intro reqModel lines
    induction lines with
    | nil =>
      intro scanErr sched hcanc
      cases scanErr with
      | none => simp [googleWorkerC] at hcanc
      | some e =>
        rcases sched with _ | ⟨b, tail⟩
        · simp [googleWorkerC] at hcanc
        · cases b
          · exact ⟨rfl, rfl, rfl⟩
          · simp [googleWorkerC] at hcanc
    | cons l rest ih =>
      intro scanErr sched hcanc
      cases l with
      | other => exact ih scanErr sched hcanc
      | data res =>
        cases res with
        | error e => simp [googleWorkerC] at hcanc
        | ok r =>
          rcases hev : googleEventChunk reqModel r with _ | ch
          · rw [show googleWorkerC reqModel (.data (.ok r) :: rest) scanErr sched
                  = googleWorkerC reqModel rest scanErr sched by
                simp [googleWorkerC, hev]] at hcanc ⊢
            exact ih scanErr sched hcanc
          · rcases sched with _ | ⟨b, tail⟩
            · rw [show googleWorkerC reqModel (.data (.ok r) :: rest) scanErr []
                    = ⟨ch :: (googleWorkerC reqModel rest scanErr []).chunks,
                        (googleWorkerC reqModel rest scanErr []).cancelled,
                        (googleWorkerC reqModel rest scanErr []).chClosed,
                        (googleWorkerC reqModel rest scanErr []).bodyClosed⟩ by
                  simp [googleWorkerC, hev]] at hcanc
              rw [googleWorkerC_nil_sched_not_cancelled reqModel rest scanErr] at hcanc
              exact absurd hcanc (by simp)
            · cases b
              · refine ⟨?_, ?_, ?_⟩ <;> simp [googleWorkerC, hev]
              · rw [show googleWorkerC reqModel (.data (.ok r) :: rest) scanErr
                      (true :: tail)
                      = ⟨ch :: (googleWorkerC reqModel rest scanErr tail).chunks,
                          (googleWorkerC reqModel rest scanErr tail).cancelled,
                          (googleWorkerC reqModel rest scanErr tail).chClosed,
                          (googleWorkerC reqModel rest scanErr tail).bodyClosed⟩ by
                    simp [googleWorkerC, hev]] at hcanc ⊢
                obtain ⟨h1, h2, h3⟩ := ih scanErr tail hcanc
                refine ⟨h1, h2, ?_⟩
                simp [List.takeWhile_cons, h3]
  · intro s lines
    induction lines generalizing s with
    | nil =>
      intro scanErr sched hcanc
      cases scanErr with
      | none => simp [anthropicWorkerC] at hcanc
      | some e =>
        rcases sched with _ | ⟨b, tail⟩
        · simp [anthropicWorkerC] at hcanc
        · cases b
          · exact ⟨rfl, rfl, rfl⟩
          · simp [anthropicWorkerC] at hcanc
    | cons l rest ih =>
      intro scanErr sched hcanc
      cases l with
      | other => exact ih s scanErr sched hcanc
      | data res =>
        cases res with
        | error e => simp [anthropicWorkerC] at hcanc
        | ok ev =>
          rcases hstep : anthropicEventStep s ev with ⟨s1, oc⟩
          rcases oc with _ | ch
          · rw [show anthropicWorkerC s (.data (.ok ev) :: rest) scanErr sched
                  = anthropicWorkerC s1 rest scanErr sched by
                simp [anthropicWorkerC, hstep]] at hcanc ⊢
            exact ih s1 scanErr sched hcanc
          · rcases sched with _ | ⟨b, tail⟩
            · rw [show anthropicWorkerC s (.data (.ok ev) :: rest) scanErr []
                    = ⟨ch :: (anthropicWorkerC s1 rest scanErr []).chunks,
                        (anthropicWorkerC s1 rest scanErr []).cancelled,
                        (anthropicWorkerC s1 rest scanErr []).chClosed,
                        (anthropicWorkerC s1 rest scanErr []).bodyClosed⟩ by
                  simp [anthropicWorkerC, hstep]] at hcanc
              rw [anthropicWorkerC_nil_sched_not_cancelled rest s1 scanErr] at hcanc
              exact absurd hcanc (by simp)
            · cases b
              · refine ⟨?_, ?_, ?_⟩ <;> simp [anthropicWorkerC, hstep]
              · rw [show anthropicWorkerC s (.data (.ok ev) :: rest) scanErr
                      (true :: tail)
                      = ⟨ch :: (anthropicWorkerC s1 rest scanErr tail).chunks,
                          (anthropicWorkerC s1 rest scanErr tail).cancelled,
                          (anthropicWorkerC s1 rest scanErr tail).chClosed,
                          (anthropicWorkerC s1 rest scanErr tail).bodyClosed⟩ by
                    simp [anthropicWorkerC, hstep]] at hcanc ⊢
                obtain ⟨h1, h2, h3⟩ := ih s1 scanErr tail hcanc
                refine ⟨h1, h2, ?_⟩
                simp [List.takeWhile_cons, h3]

/-- Witness for `worker_cancellation_c5`: both workers run on one content event with
the cancellation case firing at the first hand-off. -/
theorem worker_cancellation_c5_witness :
    ((googleWorkerC "m"
        [ .data (.ok { candidates := [ { content := { parts := [{ text := "hi" }] } } ] }) ]
        none [false]).chClosed = true
      ∧ (googleWorkerC "m"
        [ .data (.ok { candidates := [ { content := { parts := [{ text := "hi" }] } } ] }) ]
        none [false]).bodyClosed = true
      ∧ (googleWorkerC "m"
        [ .data (.ok { candidates := [ { content := { parts := [{ text := "hi" }] } } ] }) ]
        none [false]).chunks.length = (([false] : List Bool).takeWhile fun b => b).length)
    ∧ ((anthropicWorkerC {}
        [ .data (.ok { type := "content_block_delta"
                       delta := some { type := "text_delta", text := "a" } }) ]
        none [false]).chClosed = true
      ∧ (anthropicWorkerC {}
        [ .data (.ok { type := "content_block_delta"
                       delta := some { type := "text_delta", text := "a" } }) ]
        none [false]).bodyClosed = true
      ∧ (anthropicWorkerC {}
        [ .data (.ok { type := "content_block_delta"
                       delta := some { type := "text_delta", text := "a" } }) ]
        none [false]).chunks.length = (([false] : List Bool).takeWhile fun b => b).length) := by
  have h := worker_cancellation_c5
  exact ⟨h.1 "m" _ none [false] (by decide), h.2 {} _ none [false] (by decide)⟩

/-- An event whose type discriminator is none of the four recognized names falls
through the switch: state unchanged, nothing emitted. -/
theorem anthropicEventStep_unknown (s : AnthState) (ev : AnthropicStreamEvent)
    (hunk : ev.type ∉ (["message_start", "content_block_delta", "message_delta",
      "message_stop"] : List String)) :
    anthropicEventStep s ev = (s, none) := by
  simp only [List.mem_cons, List.not_mem_nil, or_false, not_or] at hunk
  obtain ⟨h1, h2, h3, h4⟩ := hunk
  unfold anthropicEventStep
  split
  · rename_i heq
    exact absurd heq h1
  · rename_i heq
    exact absurd heq h2
  · rename_i heq
    exact absurd heq h3
  · rename_i heq
    exact absurd heq h4
  · rfl

/-- Inserting an unrecognized-type event anywhere in the body leaves the whole worker
run unchanged: no chunk, no error, no state change. -/
theorem anthropicWorkerC_skips_unknown (ev : AnthropicStreamEvent)
    (hunk : ev.type ∉ (["message_start", "content_block_delta", "message_delta",
      "message_stop"] : List String)) :
    ∀ (pre post : List (SSELine AnthropicStreamEvent)) (scanErr : Option String)
      (sched : List Bool) (s : AnthState),
      anthropicWorkerC s (pre ++ .data (.ok ev) :: post) scanErr sched
        = anthropicWorkerC s (pre ++ post) scanErr sched := by
  intro pre
  induction pre with
  | nil =>
    intro post scanErr sched s
    simp [anthropicWorkerC, anthropicEventStep_unknown s ev hunk]
  | cons l pre' ih =>
    intro post scanErr sched s
    cases l with
    | other =>
      simp only [List.cons_append]
      rw [show ∀ ls, anthropicWorkerC s (SSELine.other :: ls) scanErr sched
            = anthropicWorkerC s ls scanErr sched from fun ls => rfl]
      rw [show anthropicWorkerC s (SSELine.other :: (pre' ++ post)) scanErr sched
            = anthropicWorkerC s (pre' ++ post) scanErr sched from rfl]
      exact ih post scanErr sched s
    | data res =>
      cases res with
      | error e => rfl
      | ok ev' =>
        rcases hstep : anthropicEventStep s ev' with ⟨s1, oc⟩
        rcases oc with _ | ch
        · simp only [List.cons_append]
          rw [show anthropicWorkerC s (SSELine.data (Except.ok ev') ::
                (pre' ++ SSELine.data (Except.ok ev) :: post)) scanErr sched
                = anthropicWorkerC s1 (pre' ++ SSELine.data (Except.ok ev) :: post)
                    scanErr sched by simp [anthropicWorkerC, hstep]]
          rw [show anthropicWorkerC s (SSELine.data (Except.ok ev') :: (pre' ++ post))
                scanErr sched
                = anthropicWorkerC s1 (pre' ++ post) scanErr sched by
              simp [anthropicWorkerC, hstep]]
          exact ih post scanErr sched s1
        · rcases sched with _ | ⟨b, tail⟩
          · simp only [List.cons_append]
            rw [show anthropicWorkerC s (SSELine.data (Except.ok ev') ::
                  (pre' ++ SSELine.data (Except.ok ev) :: post)) scanErr []
                  = ⟨ch :: (anthropicWorkerC s1
                        (pre' ++ SSELine.data (Except.ok ev) :: post) scanErr []).chunks,
                      (anthropicWorkerC s1 (pre' ++ SSELine.data (Except.ok ev) :: post)
                        scanErr []).cancelled,
                      (anthropicWorkerC s1 (pre' ++ SSELine.data (Except.ok ev) :: post)
                        scanErr []).chClosed,
                      (anthropicWorkerC s1 (pre' ++ SSELine.data (Except.ok ev) :: post)
                        scanErr []).bodyClosed⟩ by simp [anthropicWorkerC, hstep]]
            rw [show anthropicWorkerC s (SSELine.data (Except.ok ev') :: (pre' ++ post))
                  scanErr []
                  = ⟨ch :: (anthropicWorkerC s1 (pre' ++ post) scanErr []).chunks,
                      (anthropicWorkerC s1 (pre' ++ post) scanErr []).cancelled,
                      (anthropicWorkerC s1 (pre' ++ post) scanErr []).chClosed,
                      (anthropicWorkerC s1 (pre' ++ post) scanErr []).bodyClosed⟩ by
                simp [anthropicWorkerC, hstep]]
            rw [ih post scanErr [] s1]
          · cases b
            · simp only [List.cons_append]
              rw [show anthropicWorkerC s (SSELine.data (Except.ok ev') ::
                    (pre' ++ SSELine.data (Except.ok ev) :: post)) scanErr (false :: tail)
                    = ⟨[], true, true, true⟩ by simp [anthropicWorkerC, hstep]]
              rw [show anthropicWorkerC s (SSELine.data (Except.ok ev') :: (pre' ++ post))
                    scanErr (false :: tail) = ⟨[], true, true, true⟩ by
                  simp [anthropicWorkerC, hstep]]
            · simp only [List.cons_append]
              rw [show anthropicWorkerC s (SSELine.data (Except.ok ev') ::
                    (pre' ++ SSELine.data (Except.ok ev) :: post)) scanErr (true :: tail)
                    = ⟨ch :: (anthropicWorkerC s1
                          (pre' ++ SSELine.data (Except.ok ev) :: post) scanErr tail).chunks,
                        (anthropicWorkerC s1 (pre' ++ SSELine.data (Except.ok ev) :: post)
                          scanErr tail).cancelled,
                        (anthropicWorkerC s1 (pre' ++ SSELine.data (Except.ok ev) :: post)
                          scanErr tail).chClosed,
                        (anthropicWorkerC s1 (pre' ++ SSELine.data (Except.ok ev) :: post)
                          scanErr tail).bodyClosed⟩ by simp [anthropicWorkerC, hstep]]
              rw [show anthropicWorkerC s (SSELine.data (Except.ok ev') :: (pre' ++ post))
                    scanErr (true :: tail)
                    = ⟨ch :: (anthropicWorkerC s1 (pre' ++ post) scanErr tail).chunks,
                        (anthropicWorkerC s1 (pre' ++ post) scanErr tail).cancelled,
                        (anthropicWorkerC s1 (pre' ++ post) scanErr tail).chClosed,
                        (anthropicWorkerC s1 (pre' ++ post) scanErr tail).bodyClosed⟩ by
                  simp [anthropicWorkerC, hstep]]
              rw [ih post scanErr tail s1]

/-- After any run of decodable lines, a `data:` line whose payload fails to decode
makes the worker send exactly one terminal error chunk and return: the run is
identical whatever events follow the failure and whatever the scanner state would
have been, and every chunk before the error chunk is error-free. -/
theorem anthropicWorkerC_decode_failure (e : String) :
    ∀ pre : List (SSELine AnthropicStreamEvent),
      (∀ l ∈ pre, lineDecodeOk l = true) →
      ∀ (post : List (SSELine AnthropicStreamEvent)) (scanErr scanErr' : Option String)
        (s : AnthState),
        anthropicWorkerC s (pre ++ .data (.error e) :: post) scanErr []
          = anthropicWorkerC s (pre ++ [.data (.error e)]) scanErr' []
        ∧ ∃ cs, (anthropicWorkerC s (pre ++ .data (.error e) :: post) scanErr []).chunks
              = cs ++ [anthropicDecodeErrChunk e]
          ∧ ∀ c ∈ cs, c.error = none := by
  intro pre
  induction pre with
  | nil =>
    intro _ post scanErr scanErr' s
    exact ⟨rfl, [], rfl, by simp⟩
  | cons l pre' ih =>
    intro hok post scanErr scanErr' s
    have hl := hok l (List.mem_cons_self _ _)
    have hok' : ∀ x ∈ pre', lineDecodeOk x = true :=
      fun x hx => hok x (List.mem_cons_of_mem _ hx)
    cases l with
    | other =>
      obtain ⟨heq, cs, hcs, herr⟩ := ih hok' post scanErr scanErr' s
      exact ⟨heq, cs, hcs, herr⟩
    | data res =>
      cases res with
      | error e' => simp [lineDecodeOk] at hl
      | ok ev =>
        rcases hstep : anthropicEventStep s ev with ⟨s1, oc⟩
        obtain ⟨heq, cs, hcs, herr⟩ := ih hok' post scanErr scanErr' s1
        rcases oc with _ | ch
        · refine ⟨?_, cs, ?_, herr⟩
          · rw [show anthropicWorkerC s ((SSELine.data (Except.ok ev) :: pre')
                  ++ SSELine.data (Except.error e) :: post) scanErr []
                  = anthropicWorkerC s1 (pre' ++ SSELine.data (Except.error e) :: post)
                      scanErr [] by simp [anthropicWorkerC, hstep]]
            rw [show anthropicWorkerC s ((SSELine.data (Except.ok ev) :: pre')
                  ++ [SSELine.data (Except.error e)]) scanErr' []
                  = anthropicWorkerC s1 (pre' ++ [SSELine.data (Except.error e)])
                      scanErr' [] by simp [anthropicWorkerC, hstep]]
            exact heq
          · rw [show anthropicWorkerC s ((SSELine.data (Except.ok ev) :: pre')
                  ++ SSELine.data (Except.error e) :: post) scanErr []
                  = anthropicWorkerC s1 (pre' ++ SSELine.data (Except.error e) :: post)
                      scanErr [] by simp [anthropicWorkerC, hstep]]
            exact hcs
        · have hchunks : (anthropicWorkerC s ((SSELine.data (Except.ok ev) :: pre')
                ++ SSELine.data (Except.error e) :: post) scanErr []).chunks
                = ch :: (anthropicWorkerC s1 (pre' ++ SSELine.data (Except.error e) :: post)
                    scanErr []).chunks := by
            simp [anthropicWorkerC, hstep]
          have hcherr : ch.error = none :=
            (anthropicEventStep_chunk_fields s ev s1 ch hstep).1
          refine ⟨?_, ch :: cs, ?_, ?_⟩
          · rw [show anthropicWorkerC s ((SSELine.data (Except.ok ev) :: pre')
                  ++ SSELine.data (Except.error e) :: post) scanErr []
                  = ⟨ch :: (anthropicWorkerC s1
                        (pre' ++ SSELine.data (Except.error e) :: post) scanErr []).chunks,
                      (anthropicWorkerC s1 (pre' ++ SSELine.data (Except.error e) :: post)
                        scanErr []).cancelled,
                      (anthropicWorkerC s1 (pre' ++ SSELine.data (Except.error e) :: post)
                        scanErr []).chClosed,
                      (anthropicWorkerC s1 (pre' ++ SSELine.data (Except.error e) :: post)
                        scanErr []).bodyClosed⟩ by simp [anthropicWorkerC, hstep]]
            rw [show anthropicWorkerC s ((SSELine.data (Except.ok ev) :: pre')
                  ++ [SSELine.data (Except.error e)]) scanErr' []
                  = ⟨ch :: (anthropicWorkerC s1 (pre' ++ [SSELine.data (Except.error e)])
                        scanErr' []).chunks,
                      (anthropicWorkerC s1 (pre' ++ [SSELine.data (Except.error e)])
                        scanErr' []).cancelled,
                      (anthropicWorkerC s1 (pre' ++ [SSELine.data (Except.error e)])
                        scanErr' []).chClosed,
                      (anthropicWorkerC s1 (pre' ++ [SSELine.data (Except.error e)])
                        scanErr' []).bodyClosed⟩ by simp [anthropicWorkerC, hstep]]
            rw [heq]
          · rw [hchunks, hcs]
            rfl
          · intro c hc
            rcases List.mem_cons.mp hc with hc | hc
            · rw [hc]
              exact hcherr
            · exact herr c hc

/-- Claim C6: in Adapter B's streaming worker, (1) every event with an unrecognized
type discriminator is skipped — removing it from the body changes nothing, so no
chunk and no error is emitted for it; (2) a JSON decode failure on any event (after
decodable events) produces exactly one terminal chunk, done=true with error set,
preceded only by error-free chunks, and the worker reads no further events: the run
is identical whatever follows the failure and whatever the scanner would report. -/
theorem anthropic_events_c6 :
    (∀ ev : AnthropicStreamEvent,
      ev.type ∉ (["message_start", "content_block_delta", "message_delta",
        "message_stop"] : List String) →
      ∀ (pre post : List (SSELine AnthropicStreamEvent)) (scanErr : Option String)
        (s : AnthState),
        anthropicWorkerC s (pre ++ .data (.ok ev) :: post) scanErr []
          = anthropicWorkerC s (pre ++ post) scanErr [])
    ∧ (∀ (e : String) (pre : List (SSELine AnthropicStreamEvent)),
        (∀ l ∈ pre, lineDecodeOk l = true) →
        ∀ (post : List (SSELine AnthropicStreamEvent)) (scanErr scanErr' : Option String),
          anthropicWorker (pre ++ .data (.error e) :: post) scanErr
            = anthropicWorker (pre ++ [.data (.error e)]) scanErr'
          ∧ ∃ cs, anthropicWorker (pre ++ .data (.error e) :: post) scanErr
                = cs ++ [anthropicDecodeErrChunk e]
            ∧ (∀ c ∈ cs, c.error = none)
            ∧ (anthropicDecodeErrChunk e).done = true
            ∧ (anthropicDecodeErrChunk e).error ≠ none) := by
  constructor
  · intro ev hunk pre post scanErr s
    exact anthropicWorkerC_skips_unknown ev hunk pre post scanErr [] s
  · intro e pre hok post scanErr scanErr'
    obtain ⟨heq, cs, hcs, herr⟩ :=
      anthropicWorkerC_decode_failure e pre hok post scanErr scanErr' {}
    refine ⟨?_, cs, hcs, herr, rfl, by simp [anthropicDecodeErrChunk]⟩
    unfold anthropicWorker
    rw [heq]

/-- Witness for `anthropic_events_c6`: a "ping" event is dropped from a body, and a
decode failure after one delta event ends the worker regardless of a trailing stop
event. -/
theorem anthropic_events_c6_witness :
    (anthropicWorkerC {}
        [ .data (.ok { type := "ping" })
        , .data (.ok { type := "content_block_delta"
                       delta := some { type := "text_delta", text := "a" } }) ]
        none []
      = anthropicWorkerC {}
        [ .data (.ok { type := "content_block_delta"
                       delta := some { type := "text_delta", text := "a" } }) ]
        none [])
    ∧ (anthropicWorker
        [ .data (.ok { type := "content_block_delta"
                       delta := some { type := "text_delta", text := "a" } })
        , .data (.error "bad payload")
        , .data (.ok { type := "message_stop" }) ]
        none
      = anthropicWorker
        [ .data (.ok { type := "content_block_delta"
                       delta := some { type := "text_delta", text := "a" } })
        , .data (.error "bad payload") ]
        (some "ignored")
      ∧ ∃ cs, anthropicWorker
          [ .data (.ok { type := "content_block_delta"
                         delta := some { type := "text_delta", text := "a" } })
          , .data (.error "bad payload")
          , .data (.ok { type := "message_stop" }) ]
          none
          = cs ++ [anthropicDecodeErrChunk "bad payload"]
        ∧ (∀ c ∈ cs, c.error = none)
        ∧ (anthropicDecodeErrChunk "bad payload").done = true
        ∧ (anthropicDecodeErrChunk "bad payload").error ≠ none) := by
  have h := anthropic_events_c6
  refine ⟨?_, ?_⟩
  · exact h.1 { type := "ping" } (by decide) []
      [ .data (.ok { type := "content_block_delta"
                     delta := some { type := "text_delta", text := "a" } }) ]
      none {}
  · exact h.2 "bad payload"
      [ .data (.ok { type := "content_block_delta"
                     delta := some { type := "text_delta", text := "a" } }) ]
      (by decide)
      [ .data (.ok { type := "message_stop" }) ]
      none (some "ignored")

/-- Claim C9: for both adapters, a transport failure on the initial streaming call
returns a Failure synchronously with no worker started (no response body exists on
that path); a non-success status returns a Failure synchronously, starts no worker,
and closes the upstream response body; only a 200 status starts exactly one worker
and returns the receive-only chunk source immediately. -/
theorem stream_setup_c9 :
    (∀ m e : String,
        (googleChatCompletionStream m (.connFail e)).workerStarted = false
        ∧ ∃ msg, (googleChatCompletionStream m (.connFail e)).result = .error msg)
    ∧ (∀ (m : String) (st : Int) (body : StreamBody GeminiResponse), st ≠ 200 →
        (googleChatCompletionStream m (.success st body)).workerStarted = false
        ∧ (googleChatCompletionStream m (.success st body)).bodyClosed = true
        ∧ ∃ msg, (googleChatCompletionStream m (.success st body)).result = .error msg)
    ∧ (∀ (m : String) (body : StreamBody GeminiResponse),
        googleChatCompletionStream m (.success 200 body)
          = ⟨.ok (googleWorker m body.lines body.scanErr), true, true⟩)
    ∧ (∀ e : String,
        (anthropicChatCompletionStream (.connFail e)).workerStarted = false
        ∧ ∃ msg, (anthropicChatCompletionStream (.connFail e)).result = .error msg)
    ∧ (∀ (st : Int) (body : StreamBody AnthropicStreamEvent), st ≠ 200 →
        (anthropicChatCompletionStream (.success st body)).workerStarted = false
        ∧ (anthropicChatCompletionStream (.success st body)).bodyClosed = true
        ∧ ∃ msg, (anthropicChatCompletionStream (.success st body)).result = .error msg)
    ∧ (∀ body : StreamBody AnthropicStreamEvent,
        anthropicChatCompletionStream (.success 200 body)
          = ⟨.ok (anthropicWorker body.lines body.scanErr), true, true⟩) := by
  refine ⟨?_, ?_, ?_, ?_, ?_, ?_⟩
  · intro m e
    exact ⟨rfl, _, rfl⟩
  · intro m st body hst
    simp [googleChatCompletionStream, hst]
  · intro m body
    simp [googleChatCompletionStream]
  · intro e
    exact ⟨rfl, _, rfl⟩
  · intro st body hst
    simp [anthropicChatCompletionStream, hst]
  · intro body
    simp [anthropicChatCompletionStream]

/-- Witness for `stream_setup_c9` at concrete connection outcomes (transport error,
status 500, status 200) for both adapters. -/
theorem stream_setup_c9_witness :
    ((googleChatCompletionStream "m" (.connFail "dial timeout")).workerStarted = false
      ∧ ∃ msg, (googleChatCompletionStream "m" (.connFail "dial timeout")).result
          = .error msg)
    ∧ ((googleChatCompletionStream "m" (.success 500 {})).workerStarted = false
      ∧ (googleChatCompletionStream "m" (.success 500 {})).bodyClosed = true
      ∧ ∃ msg, (googleChatCompletionStream "m" (.success 500 {})).result = .error msg)
    ∧ googleChatCompletionStream "m" (.success 200 {})
        = ⟨.ok (googleWorker "m" [] none), true, true⟩
    ∧ ((anthropicChatCompletionStream (.connFail "dial timeout")).workerStarted = false
      ∧ ∃ msg, (anthropicChatCompletionStream (.connFail "dial timeout")).result
          = .error msg)
    ∧ ((anthropicChatCompletionStream (.success 500 {})).workerStarted = false
      ∧ (anthropicChatCompletionStream (.success 500 {})).bodyClosed = true
      ∧ ∃ msg, (anthropicChatCompletionStream (.success 500 {})).result = .error msg)
    ∧ anthropicChatCompletionStream (.success 200 {})
        = ⟨.ok (anthropicWorker [] none), true, true⟩ := by
  have h := stream_setup_c9
  exact ⟨h.1 "m" "dial timeout", h.2.1 "m" 500 {} (by decide), h.2.2.1 "m" {},
    h.2.2.2.1 "dial timeout", h.2.2.2.2.1 500 {} (by decide), h.2.2.2.2.2 {}⟩
